import Mathlib

/-!
Verification development for the greedytile generation engine.

The definitions below are a shallow embedding of the Rust sources:
`src/spatial/{grid,extension,tiles}.rs`, `src/algorithm/{bitset,cache,selection,
propagation,deadlock,feasibility,executor}.rs`, `src/analysis/weights.rs`,
`src/math/probability.rs`, `src/io/{configuration,prefill}.rs`.
Machine floats (`f64`) are modelled as exact rationals; the transcendental
operations the code calls (`exp`, `ln`, `sqrt`, the float constants pi and
sqrt 2) are abstracted as an explicit `FloatOps` parameter, and the seeded
random generator `StdRng` as an explicit stream of draws.  Unsigned machine
integers are modelled as `Nat` (note `Nat` subtraction is exactly Rust's
`saturating_sub`); `i32`/`usize` index arithmetic is modelled as `Int` with the
clamping casts written out.
-/

namespace GreedyTile

/-- A two-dimensional array (`ndarray::Array2`) with explicit dimensions.
Reads outside the dimensions yield `none`, matching `Array2::get`. -/
structure Arr2 (α : Type) where
  rows : Nat
  cols : Nat
  data : Nat → Nat → α

/-- `Array2::get`: in-bounds read. -/
def Arr2.get? {α : Type} (a : Arr2 α) (i j : Nat) : Option α :=
  if i < a.rows ∧ j < a.cols then some (a.data i j) else none

/-- In-bounds read with a default, matching `get(..).copied().unwrap_or(d)`. -/
def Arr2.getD {α : Type} (a : Arr2 α) (i j : Nat) (d : α) : α :=
  (a.get? i j).getD d

/-- `Array2::get_mut`: mutate the cell when it is in bounds, else do nothing. -/
def Arr2.modify {α : Type} (a : Arr2 α) (i j : Nat) (f : α → α) : Arr2 α :=
  if i < a.rows ∧ j < a.cols then
    { a with data := fun r c => if r = i ∧ c = j then f (a.data i j) else a.data r c }
  else a

/-- `Array2::from_elem` / `ones` / `zeros`. -/
def Arr2.const {α : Type} (rows cols : Nat) (v : α) : Arr2 α :=
  { rows := rows, cols := cols, data := fun _ _ => v }

/-- Replace the backing data of an array, keeping its dimensions. -/
def Arr2.withData {α : Type} (a : Arr2 α) (f : Nat → Nat → α) : Arr2 α :=
  { a with data := f }

/-- `grid::get_region_spans` from `src/spatial/grid.rs`: convert a world
coordinate and radius to half-open grid index ranges, clamping negative
bounds to 0 exactly as the source's `if .. < 0 { 0 } else { .. as usize }`. -/
def get_region_spans (offset coordinates : Int × Int) (radius : Int) :
    (Nat × Nat) × (Nat × Nat) :=
  let index0 := coordinates.1 + offset.1
  let index1 := coordinates.2 + offset.2
  (((index0 - radius).toNat, (index0 + radius + 1).toNat),
   ((index1 - radius).toNat, (index1 + radius + 1).toNat))

/-- `ExtensionInfo` from `src/spatial/extension.rs`. -/
structure ExtensionInfo where
  pad_left : Nat
  pad_right : Nat
  pad_top : Nat
  pad_bottom : Nat
  new_offset : Int × Int
  needs_extension : Bool

/-- `calculate_extension` from `src/spatial/extension.rs`.  The `as usize`
casts in the source are applied to differences that are nonnegative by
construction, so `Int.toNat` is exact. -/
def calculate_extension (current_dims : Nat × Nat) (offset : Int × Int)
    (coordinates : Int × Int) (radius : Int) : ExtensionInfo :=
  let current_min : Int × Int := (-offset.1, -offset.2)
  let current_max : Int × Int :=
    (-offset.1 + current_dims.1 - 1, -offset.2 + current_dims.2 - 1)
  let new_min : Int × Int :=
    (min current_min.1 (coordinates.1 - radius), min current_min.2 (coordinates.2 - radius))
  let new_max : Int × Int :=
    (max current_max.1 (coordinates.1 + radius), max current_max.2 (coordinates.2 + radius))
  let pad_left := (current_min.1 - new_min.1).toNat
  let pad_right := (new_max.1 - current_max.1).toNat
  let pad_top := (current_min.2 - new_min.2).toNat
  let pad_bottom := (new_max.2 - current_max.2).toNat
  let needs := decide (0 < pad_left + pad_right + pad_top + pad_bottom)
  { pad_left := pad_left, pad_right := pad_right, pad_top := pad_top,
    pad_bottom := pad_bottom,
    new_offset :=
      if needs then (offset.1 + (pad_left : Int), offset.2 + (pad_top : Int)) else offset,
    needs_extension := needs }

/-- `extend_array_2d` from `src/spatial/extension.rs`: allocate the padded
array filled with `padding_value` and copy the old interior at offset
`(pad_left, pad_top)`. -/
def extend_array_2d {α : Type} (array : Arr2 α) (info : ExtensionInfo)
    (padding_value : α) : Arr2 α :=
  if info.needs_extension then
    { rows := array.rows + info.pad_left + info.pad_right
      cols := array.cols + info.pad_top + info.pad_bottom
      data := fun i j =>
        if info.pad_left ≤ i ∧ i < info.pad_left + array.rows ∧
            info.pad_top ≤ j ∧ j < info.pad_top + array.cols then
          array.data (i - info.pad_left) (j - info.pad_top)
        else padding_value }
  else array

/-- `impl Extendable for f64` (`src/spatial/extension.rs`): padding 1.0. -/
def f64_padding_value : ℚ := 1

/-- `impl Extendable for u32` (`src/spatial/extension.rs`): padding 1. -/
def u32_padding_value : Nat := 1

/-- `impl Extendable for u8` (`src/spatial/extension.rs`): padding 1. -/
def u8_padding_value : Nat := 1

/-- `BoundingBox` from `src/spatial/grid.rs` (inclusive world bounds). -/
structure BoundingBox where
  min : Int × Int
  max : Int × Int

/-- `BoundingBox::contains`. -/
def BoundingBox.contains (b : BoundingBox) (pos : Int × Int) : Bool :=
  decide (b.min.1 ≤ pos.1 ∧ pos.1 ≤ b.max.1 ∧ b.min.2 ≤ pos.2 ∧ pos.2 ≤ b.max.2)

/-- `GridState` from `src/spatial/grid.rs`: the six co-sized fields plus
bookkeeping.  `locked_tiles` keeps the source's sentinel coding
(0 = uninitialized, 1 = empty, 2+ = tile value + 1). -/
structure GridState where
  tile_probabilities : List (Arr2 ℚ)
  entropy : Arr2 ℚ
  adjacency_weights : Arr2 Nat
  locked_tiles : Arr2 Nat
  feasibility : Arr2 ℚ
  removal_count : Arr2 Nat
  unique_cell_count : Nat
  dimensions : Nat × Nat
  generation_bounds : Option BoundingBox

/-- `GridState::rows`. -/
def GridState.rows (g : GridState) : Nat := g.dimensions.1

/-- `GridState::cols`. -/
def GridState.cols (g : GridState) : Nat := g.dimensions.2

/-- `GridState::new`: probabilities/entropy/adjacency/locked/feasibility all
ones, `removal_count` zeros. -/
def GridState.new (rows cols unique_cell_count : Nat) : GridState :=
  { tile_probabilities := List.replicate unique_cell_count (Arr2.const rows cols (1 : ℚ))
    entropy := Arr2.const rows cols 1
    adjacency_weights := Arr2.const rows cols 1
    locked_tiles := Arr2.const rows cols 1
    feasibility := Arr2.const rows cols 1
    removal_count := Arr2.const rows cols 0
    unique_cell_count := unique_cell_count
    dimensions := (rows, cols)
    generation_bounds := none }

/-- `GridState::constrain_extension`: shrink the paddings so that the grid
never extends past the generation bounds, then recompute the flag and the
offset.  `saturating_sub` on `usize` is `Nat` subtraction. -/
def GridState.constrain_extension (g : GridState) (info0 : ExtensionInfo)
    (bounds : BoundingBox) (offset : Int × Int) : ExtensionInfo :=
  let current_min : Int × Int := (-offset.1, -offset.2)
  let new_min : Int × Int :=
    (current_min.1 - (info0.pad_left : Int), current_min.2 - (info0.pad_top : Int))
  let info1 :=
    if new_min.1 < bounds.min.1 then
      { info0 with pad_left := info0.pad_left - (bounds.min.1 - new_min.1).toNat }
    else info0
  let info2 :=
    if new_min.2 < bounds.min.2 then
      { info1 with pad_top := info1.pad_top - (bounds.min.2 - new_min.2).toNat }
    else info1
  let current_max : Int × Int :=
    (current_min.1 + (g.rows : Int) - 1, current_min.2 + (g.cols : Int) - 1)
  let new_max : Int × Int :=
    (current_max.1 + (info2.pad_right : Int), current_max.2 + (info2.pad_bottom : Int))
  let info3 :=
    if bounds.max.1 < new_max.1 then
      { info2 with pad_right := info2.pad_right - (new_max.1 - bounds.max.1).toNat }
    else info2
  let info4 :=
    if bounds.max.2 < new_max.2 then
      { info3 with pad_bottom := info3.pad_bottom - (new_max.2 - bounds.max.2).toNat }
    else info3
  let needs :=
    decide (0 < info4.pad_left + info4.pad_right + info4.pad_top + info4.pad_bottom)
  { info4 with
    needs_extension := needs
    new_offset :=
      if needs then
        (offset.1 + (info4.pad_left : Int), offset.2 + (info4.pad_top : Int))
      else offset }

/-- The extension record `extend_if_needed` acts on: `calculate_extension`,
constrained when generation bounds are present. -/
def GridState.extension_info (g : GridState) (offset : Int × Int)
    (coordinates : Int × Int) (radius : Int) : ExtensionInfo :=
  let info0 := calculate_extension (g.rows, g.cols) offset coordinates radius
  match g.generation_bounds with
  | some bounds => g.constrain_extension info0 bounds offset
  | none => info0

/-- `GridState::extend_if_needed`: compute (and possibly constrain) the
extension, then pad every field with its `Extendable` padding value and
update the dimensions and offset. -/
def GridState.extend_if_needed (g : GridState) (offset : Int × Int)
    (coordinates : Int × Int) (radius : Int) : GridState × (Int × Int) × Bool :=
  let info := g.extension_info offset coordinates radius
  if info.needs_extension then
    ({ g with
        tile_probabilities :=
          g.tile_probabilities.map (fun m => extend_array_2d m info f64_padding_value)
        entropy := extend_array_2d g.entropy info f64_padding_value
        adjacency_weights := extend_array_2d g.adjacency_weights info u32_padding_value
        locked_tiles := extend_array_2d g.locked_tiles info u32_padding_value
        feasibility := extend_array_2d g.feasibility info f64_padding_value
        removal_count := extend_array_2d g.removal_count info u8_padding_value
        dimensions := (g.rows + info.pad_left + info.pad_right,
                       g.cols + info.pad_top + info.pad_bottom) },
      info.new_offset, true)
  else (g, offset, false)

/-- Probability value of color `c` at grid cell `(i, j)` (0 outside the
stored color list), a reading helper for stating theorems. -/
def GridState.probData (g : GridState) (c i j : Nat) : ℚ :=
  match g.tile_probabilities.get? c with
  | some a => a.data i j
  | none => 0

/-- A 3x3 tile (`type Tile` in `src/spatial/tiles.rs`); cells are color ids. -/
abbrev Tile := Fin 3 → Fin 3 → Nat

/-- A 3x3 query pattern as the algorithm builds it (`[[i32; 3]; 3]`): cell
value 0 is the wildcard before conversion, -1 after. -/
abbrev Pattern := Fin 3 → Fin 3 → Int

/-- View a source tile as an integer pattern (the `usize → i32` conversion). -/
def tileToPattern (t : Tile) : Pattern := fun r c => (t r c : Int)

/-- `convert_tile_to_membership_booleans` (`src/spatial/tiles.rs`): position
`i` is true iff the tile contains the (positive) cell value `i + 1`. -/
def convert_tile_to_membership_booleans (tile : Pattern) (unique_cell_count : Nat) :
    List Bool :=
  (List.range unique_cell_count).map
    (fun i => decide (∃ r c, tile r c = ((i + 1 : Nat) : Int)))

/-- The being-a-subset test of `build_boolean_reference_rules`: every set bit
of the query mask must be present in the tile's membership booleans. -/
def maskSubset (mask tile_booleans : List Bool) : Bool :=
  (mask.zip tile_booleans).all (fun p => !p.1 || p.2)

/-- `build_boolean_reference_rules` (`src/spatial/tiles.rs`) composed with the
`HashMap` lookup `get(..).cloned().unwrap_or_default()` used at every call
site: the map stores, for each membership mask, the 1-based ids of the tiles
whose membership booleans contain the mask (absent keys — only possible for
empty candidate lists, which are not inserted — read back as the empty
list, which is also what the filter yields). -/
def reference_rules_lookup (source_tiles : List Tile) (unique_cell_count : Nat)
    (mask : List Bool) : List Nat :=
  (List.range source_tiles.length).filterMap (fun index =>
    match source_tiles.get? index with
    | some tile =>
        if maskSubset mask
            (convert_tile_to_membership_booleans (tileToPattern tile) unique_cell_count)
        then some (index + 1) else none
    | none => none)

/-- The wildcard conversion `if val == 0 { -1 } else { val }`. -/
def wildcardize (v : Int) : Int := if v = 0 then -1 else v

/-- The wildcard match of `find_compatible_values_at_offset_bitset` and
`FeasibilityCountLayer::update_count`: after conversion, every pattern cell
is either -1 or equal to the source tile's cell. -/
def tile_matches_pattern (tile_pattern : Pattern) (source_tile : Tile) : Bool :=
  decide (∀ r c : Fin 3,
    wildcardize (tile_pattern r c) = -1 ∨
    wildcardize (tile_pattern r c) = (source_tile r c : Int))

/-- `TileBitset` (`src/algorithm/bitset.rs`): `max_tiles` is `bits.length`. -/
structure TileBitset where
  bits : List Bool

/-- `TileBitset::new`. -/
def TileBitset.new (max_tiles : Nat) : TileBitset :=
  ⟨List.replicate max_tiles false⟩

/-- `TileBitset::insert` (1-based, out-of-range ignored). -/
def TileBitset.insert (b : TileBitset) (tile : Nat) : TileBitset :=
  if 0 < tile ∧ tile ≤ b.bits.length then ⟨b.bits.set (tile - 1) true⟩ else b

/-- `TileBitset::contains` (1-based). -/
def TileBitset.contains (b : TileBitset) (tile : Nat) : Bool :=
  decide (0 < tile) && b.bits.getD (tile - 1) false

/-- `TileBitset::intersection` (bitwise and; operands share a length here). -/
def TileBitset.intersection (a b : TileBitset) : TileBitset :=
  ⟨(a.bits.zip b.bits).map (fun p => p.1 && p.2)⟩

/-- `TileBitset::is_empty`. -/
def TileBitset.isEmpty (b : TileBitset) : Bool :=
  b.bits.all (fun x => !x)

/-- `TileBitset::to_vec`: the 1-based indices of the set bits, in index
order. -/
def TileBitset.toVec (b : TileBitset) : List Nat :=
  (List.range b.bits.length).filterMap
    (fun i => if b.bits.getD i false then some (i + 1) else none)

/-- `find_compatible_values_at_offset_bitset` (`src/algorithm/selection.rs`):
look up candidates by the pattern's membership mask, retain those matching
under the wildcard rule, and collect their target-cell values. -/
def find_compatible_values_at_offset_bitset (tile_pattern : Pattern)
    (source_tiles : List Tile) (unique_cell_count : Nat)
    (target_row target_col : Fin 3) : TileBitset :=
  let tile_booleans := convert_tile_to_membership_booleans tile_pattern unique_cell_count
  let potential_sources := reference_rules_lookup source_tiles unique_cell_count tile_booleans
  potential_sources.foldl (fun result ref_index =>
    if 0 < ref_index then
      match source_tiles.get? (ref_index - 1) with
      | some source_tile =>
          if tile_matches_pattern tile_pattern source_tile then
            result.insert (source_tile target_row target_col)
          else result
      | none => result
    else result) (TileBitset.new unique_cell_count)

/-- The window visit order of `compute_viable_tiles_at_position`
(center-of-cell window first). -/
def viable_positions : List (Fin 3 × Fin 3) :=
  [(1, 1), (0, 1), (1, 0), (1, 2), (2, 1), (0, 0), (0, 2), (2, 0), (2, 2)]

/-- The target cell `(2 - i, 2 - j)` within a window. -/
def finTarget (i : Fin 3) : Fin 3 := ⟨2 - i.val, by omega⟩

/-- The 3x3 patch read from `locked_tiles` starting at a window's clamped
top-left corner: `locked - 1` in bounds (`unwrap_or(1)` never fires under
the guard), 0 outside. -/
def viable_window_patch (g : GridState) (row_start col_start : Nat) : Pattern :=
  fun di dj =>
    let r := row_start + di.val
    let c := col_start + dj.val
    if r < g.rows ∧ c < g.cols then (g.locked_tiles.getD r c 1 : Int) - 1 else 0

/-- Whether one of the nine windows is consulted: the source skips a window
when a clamped span has width at most 2. -/
def window_kept (position system_offset : Int × Int) (p : Fin 3 × Fin 3) : Bool :=
  let spans := get_region_spans system_offset
    (position.1 + (p.1.val : Int) - 1, position.2 + (p.2.val : Int) - 1) 1
  !(decide (spans.1.2 - spans.1.1 ≤ 2) || decide (spans.2.2 - spans.2.1 ≤ 2))

/-- The color set a consulted window contributes: compatible target values of
the window's patch. -/
def window_compatible_set (g : GridState) (position system_offset : Int × Int)
    (source_tiles : List Tile) (unique_cell_count : Nat)
    (p : Fin 3 × Fin 3) : TileBitset :=
  let spans := get_region_spans system_offset
    (position.1 + (p.1.val : Int) - 1, position.2 + (p.2.val : Int) - 1) 1
  find_compatible_values_at_offset_bitset
    (viable_window_patch g spans.1.1 spans.2.1)
    source_tiles unique_cell_count (finTarget p.1) (finTarget p.2)

/-- The intersection loop of `compute_viable_tiles_at_position`, with the
early empty return. -/
def viable_loop (g : GridState) (position system_offset : Int × Int)
    (source_tiles : List Tile) (unique_cell_count : Nat) :
    List (Fin 3 × Fin 3) → Option TileBitset → List Nat
  | [], acc => (acc.getD (TileBitset.new unique_cell_count)).toVec
  | p :: rest, acc =>
    if window_kept position system_offset p then
      let compatible :=
        window_compatible_set g position system_offset source_tiles unique_cell_count p
      match acc with
      | none =>
          viable_loop g position system_offset source_tiles unique_cell_count rest
            (some compatible)
      | some current =>
          let inter := current.intersection compatible
          if inter.isEmpty then []
          else
            viable_loop g position system_offset source_tiles unique_cell_count rest
              (some inter)
    else viable_loop g position system_offset source_tiles unique_cell_count rest acc

/-- `compute_viable_tiles_at_position` (`src/algorithm/selection.rs`).  The
memoization cache is semantically transparent (`get_or_compute_pattern`
returns exactly the computed bitset), so it is elided. -/
def compute_viable_tiles_at_position (g : GridState) (position system_offset : Int × Int)
    (source_tiles : List Tile) (unique_cell_count : Nat) : List Nat :=
  viable_loop g position system_offset source_tiles unique_cell_count viable_positions none

/-- Following the claim's words for the comparison (not the source): the 3x3
patch of the window centered at the given world coordinate, reading cells
outside the grid as the wildcard 0. -/
def spec_window_patch (g : GridState) (system_offset : Int × Int)
    (center : Int × Int) : Pattern :=
  fun di dj =>
    let r : Int := center.1 + system_offset.1 - 1 + di.val
    let c : Int := center.2 + system_offset.2 - 1 + dj.val
    if 0 ≤ r ∧ r < (g.rows : Int) ∧ 0 ≤ c ∧ c < (g.cols : Int) then
      (g.locked_tiles.getD r.toNat c.toNat 1 : Int) - 1
    else 0

/-- Following the claim's words for the comparison (not the source): the
sorted intersection of the compatible-color sets contributed by all nine
3x3 windows containing the cell. -/
def spec_viable_tiles_nine_windows (g : GridState) (position system_offset : Int × Int)
    (source_tiles : List Tile) (unique_cell_count : Nat) : List Nat :=
  let sets := viable_positions.map (fun p =>
    find_compatible_values_at_offset_bitset
      (spec_window_patch g system_offset
        (position.1 + (p.1.val : Int) - 1, position.2 + (p.2.val : Int) - 1))
      source_tiles unique_cell_count (finTarget p.1) (finTarget p.2))
  match sets with
  | [] => []
  | s :: rest => (rest.foldl (fun a b => a.intersection b) s).toVec

/-- Concrete tile for the window-skip counterexample: value 1 everywhere
except value 2 in the bottom-right corner. -/
def cornerTile : Tile :=
  fun r c => if r.val = 2 ∧ c.val = 2 then 2 else 1

/-- `ADJACENCY_CANDIDATES_CONSIDERED` from `src/io/configuration.rs`. -/
def configuration.ADJACENCY_CANDIDATES_CONSIDERED : Nat := 30

/-- `CANDIDATES_CONSIDERED` from `src/io/configuration.rs`. -/
def configuration.CANDIDATES_CONSIDERED : Nat := 15

/-- `BASE_REMOVAL_RADIUS` from `src/io/configuration.rs`. -/
def configuration.BASE_REMOVAL_RADIUS : Int := 0

/-- `MAX_REMOVAL_RADIUS` from `src/io/configuration.rs`. -/
def configuration.MAX_REMOVAL_RADIUS : Int := 6

/-- `ADJACENCY_LEVELS` from `src/io/configuration.rs`. -/
def configuration.ADJACENCY_LEVELS : Nat := 2

/-- `ADJACENCY_CANDIDATES_CONSIDERED` from `src/algorithm/selection.rs` (the
constant the sampling path actually uses). -/
def selection.ADJACENCY_CANDIDATES_CONSIDERED : Nat := 20

/-- `CANDIDATES_CONSIDERED` from `src/algorithm/selection.rs`. -/
def selection.CANDIDATES_CONSIDERED : Nat := 15

/-- The transcendental `f64` operations and float constants the code uses,
abstracted: the model is exact-rational, so `exp`, `ln`, `sqrt` and the
constants pi and sqrt 2 are parameters. -/
structure FloatOps where
  exp : ℚ → ℚ
  ln : ℚ → ℚ
  sqrt : ℚ → ℚ
  pi : ℚ
  sqrt2 : ℚ

/-- A region of half-open row/col index ranges (`Region` in
`src/algorithm/propagation.rs`). -/
structure Region where
  row_start : Nat
  row_end : Nat
  col_start : Nat
  col_end : Nat

/-- Membership of a cell in a region. -/
def Region.mem (rg : Region) (row col : Nat) : Prop :=
  rg.row_start ≤ row ∧ row < rg.row_end ∧ rg.col_start ≤ col ∧ col < rg.col_end

instance (rg : Region) (row col : Nat) : Decidable (rg.mem row col) := by
  unfold Region.mem; infer_instance

/-- A 3-dimensional array view (`ndarray::ArrayView3`). -/
structure Arr3 (α : Type) where
  d0 : Nat
  d1 : Nat
  d2 : Nat
  data : Nat → Nat → Nat → α

/-- Guarded read, matching `ArrayView3::get`. -/
def Arr3.get? {α : Type} (a : Arr3 α) (i j k : Nat) : Option α :=
  if i < a.d0 ∧ j < a.d1 ∧ k < a.d2 then some (a.data i j k) else none

/-- A 4-dimensional array (`ndarray::Array4`), the influence tensor. -/
structure Arr4 (α : Type) where
  d0 : Nat
  d1 : Nat
  d2 : Nat
  d3 : Nat
  data : Nat → Nat → Nat → Nat → α

/-- `index_axis(Axis(0), k)`. -/
def Arr4.index_axis0 {α : Type} (a : Arr4 α) (k : Nat) : Arr3 α :=
  ⟨a.d1, a.d2, a.d3, fun i j l => a.data k i j l⟩

/-- `StepData` (`src/algorithm/propagation.rs`).  The compatibility-rule map
is not stored: the executor builds it from `source_tiles` and every lookup
is modelled by `reference_rules_lookup source_tiles`. -/
structure StepData where
  source_ratios : List ℚ
  unique_cell_count : Nat
  grid_extension_radius : Int
  density_correction_threshold : ℚ
  density_correction_steepness : ℚ
  density_minimum_strength : ℚ
  source_tiles : List Tile

/-- The per-cell entropy computation inside
`update_probabilities_and_entropy_fused`: sum the per-color probabilities
(missing reads contribute nothing), divide by `unique_cell_count` for the
mean, and accumulate `p * ln p` over the mean-normalized values that are
positive; 0 when the mean is not positive. -/
def entropy_at (ops : FloatOps) (probs : List (Arr2 ℚ)) (unique_cell_count : Nat)
    (row col : Nat) : ℚ :=
  let sum := (List.range unique_cell_count).foldl (fun s color =>
    match probs.get? color with
    | some a => match a.get? row col with
                | some p => s + p
                | none => s
    | none => s) 0
  let mean_prob := sum / (unique_cell_count : ℚ)
  if 0 < mean_prob then
    (List.range unique_cell_count).foldl (fun s color =>
      let p := (match probs.get? color with
                | some a => (a.get? row col).getD 0
                | none => 0) / mean_prob
      if 0 < p then s + p * ops.ln p else s) 0
  else 0

/-- The probability-multiplication loop of
`update_probabilities_and_entropy_fused`: each region cell of each color is
scaled by the corresponding influence entry (`unwrap_or(1.0)` off the
view). -/
def multiply_influence_probs (probs : List (Arr2 ℚ)) (impact : Arr3 ℚ)
    (region : Region) : List (Arr2 ℚ) :=
  probs.mapIdx (fun color a =>
    a.withData (fun row col =>
      if region.mem row col ∧ row < a.rows ∧ col < a.cols then
        a.data row col *
          (impact.get? color (row - region.row_start) (col - region.col_start)).getD 1
      else a.data row col))

/-- `update_probabilities_and_entropy_fused` (`src/algorithm/propagation.rs`):
for every region cell, multiply each color probability by the corresponding
influence entry (`unwrap_or(1.0)` outside the view), then store the entropy
of the updated cell.  The loops write each cell once from its own prior
value, so they are rendered as a pointwise update. -/
def update_probabilities_and_entropy_fused (ops : FloatOps) (g : GridState)
    (impact : Arr3 ℚ) (region : Region) : GridState :=
  let newProbs := multiply_influence_probs g.tile_probabilities impact region
  let newEntropy := g.entropy.withData (fun row col =>
    if region.mem row col ∧ row < g.entropy.rows ∧ col < g.entropy.cols then
      entropy_at ops newProbs g.unique_cell_count row col
    else g.entropy.data row col)
  { g with tile_probabilities := newProbs, entropy := newEntropy }

/-- `update_probabilities_and_entropy` (`src/algorithm/propagation.rs`):
clamp the influence-radius region to the grid and run the fused update with
the placed tile's slice of the influence tensor. -/
def update_probabilities_and_entropy (ops : FloatOps) (g : GridState)
    (probability_influence_matrices : Arr4 ℚ) (selected_cell_reference : Nat)
    (selection_coordinates system_offset : Int × Int) (sd : StepData) : GridState :=
  let spans := get_region_spans system_offset selection_coordinates sd.grid_extension_radius
  let region : Region :=
    ⟨min spans.1.1 g.rows, min spans.1.2 g.rows, min spans.2.1 g.cols, min spans.2.2 g.cols⟩
  update_probabilities_and_entropy_fused ops g
    (probability_influence_matrices.index_axis0 (selected_cell_reference - 1)) region

/-- Apply `f` via `get_mut` to every cell of a span rectangle (the nested
row/col loops used for adjacency weights and `locked_tiles`); each cell is
written once from its own prior value. -/
def Arr2.modifyRegion {α : Type} (a : Arr2 α) (rs re cs ce : Nat) (f : α → α) : Arr2 α :=
  { a with data := fun r c =>
      if rs ≤ r ∧ r < re ∧ cs ≤ c ∧ c < ce ∧ r < a.rows ∧ c < a.cols then f (a.data r c)
      else a.data r c }

/-- `update_grid_state` (`src/algorithm/propagation.rs`): add the
level-graded increments to `adjacency_weights` over the Chebyshev balls,
then add the tile reference to `locked_tiles` at the radius-0 span.
(The optional visualization capture records and does not mutate.) -/
def update_grid_state (g : GridState) (selected_cell_reference : Nat)
    (selection_coordinates system_offset : Int × Int) : GridState :=
  let g1 := (List.range configuration.ADJACENCY_LEVELS).foldl (fun gacc lvl =>
    let level := lvl + 1
    let weight_increment := 1 + configuration.ADJACENCY_LEVELS - level
    let spans := get_region_spans system_offset selection_coordinates (level : Int)
    let newAdj := gacc.adjacency_weights.modifyRegion spans.1.1 spans.1.2 spans.2.1 spans.2.2
      (fun w => w + weight_increment)
    { gacc with adjacency_weights := newAdj }) g
  let spans0 := get_region_spans system_offset selection_coordinates 0
  let newLocked := g1.locked_tiles.modifyRegion spans0.1.1 spans0.1.2 spans0.2.1 spans0.2.2
    (fun l => l + selected_cell_reference)
  { g1 with locked_tiles := newLocked }

/-- `FeasibilityCountLayer` (`src/algorithm/feasibility.rs`). -/
structure FeasibilityCountLayer where
  counts : Arr2 Nat
  tile_count : Nat

/-- `FeasibilityCountLayer::new`. -/
def FeasibilityCountLayer.new (rows cols tile_count : Nat) : FeasibilityCountLayer :=
  ⟨Arr2.const rows cols tile_count, tile_count⟩

/-- `FeasibilityCountLayer::update_count`: count the candidate tiles (from
the dispatch rules) that match the window pattern under the wildcard rule
and store the count at `(row, col)`. -/
def FeasibilityCountLayer.update_count (fl : FeasibilityCountLayer) (row col : Nat)
    (tile_grid : Pattern) (source_tiles : List Tile) (unique_cell_count : Nat) :
    FeasibilityCountLayer :=
  let tile_booleans := convert_tile_to_membership_booleans tile_grid unique_cell_count
  let potential_sources := reference_rules_lookup source_tiles unique_cell_count tile_booleans
  let count := potential_sources.countP (fun ref_index =>
    decide (0 < ref_index) && decide (ref_index ≤ source_tiles.length) &&
    (match source_tiles.get? (ref_index - 1) with
     | some source_tile => tile_matches_pattern tile_grid source_tile
     | none => false))
  { fl with counts := fl.counts.modify row col (fun _ => count) }

/-- `FeasibilityCountLayer::get_fraction`. -/
def FeasibilityCountLayer.get_fraction (fl : FeasibilityCountLayer) (row col : Nat) : ℚ :=
  if row < fl.counts.rows ∧ col < fl.counts.cols then
    (((fl.counts.get? row col).getD fl.tile_count : ℚ)) / (fl.tile_count : ℚ)
  else 1

/-- `FeasibilityCountLayer::extend_to`: grow (or reshape) the counts array,
filling new cells with full feasibility. -/
def FeasibilityCountLayer.extend_to (fl : FeasibilityCountLayer)
    (new_rows new_cols : Nat) : FeasibilityCountLayer :=
  if new_rows = fl.counts.rows ∧ new_cols = fl.counts.cols then fl
  else
    ⟨{ rows := new_rows, cols := new_cols,
       data := fun i j =>
         if i < fl.counts.rows ∧ j < fl.counts.cols then fl.counts.data i j
         else fl.tile_count }, fl.tile_count⟩

/-- The 3x3 `locked_tiles` window pattern both feasibility updaters build:
`locked - 1` for in-bounds cells with a positive sentinel, 0 otherwise. -/
def feasibility_patch (g : GridState) (source_row source_col : Nat) : Pattern :=
  fun di dj =>
    let r := source_row + di.val
    let c := source_col + dj.val
    if r < g.rows ∧ c < g.cols then
      let locked_val := g.locked_tiles.getD r c 0
      if 0 < locked_val then (locked_val : Int) - 1 else 0
    else 0

/-- The list of indices of a half-open span. -/
def spanList (s : Nat × Nat) : List Nat := List.range' s.1 (s.2 - s.1)

/-- The increments -1, 0, 1 of the 3x3 aggregation loops. -/
def aggDeltas : List Int := [-1, 0, 1]

/-- `update_feasibility_counts` (`src/algorithm/propagation.rs`): refresh the
window counts in the `ADJACENCY_LEVELS` region, then write the linear mean
of the nine neighboring fractions into `feasibility[target + 1]`. -/
def update_feasibility_counts (g : GridState) (fl : FeasibilityCountLayer)
    (selection_coordinates system_offset : Int × Int) (sd : StepData) :
    GridState × FeasibilityCountLayer :=
  let spans := get_region_spans system_offset selection_coordinates
    (configuration.ADJACENCY_LEVELS : Int)
  let fl1 := (spanList spans.1).foldl (fun acc source_row =>
    (spanList spans.2).foldl (fun acc2 source_col =>
      if source_row + 2 < g.rows ∧ source_col + 2 < g.cols then
        acc2.update_count source_row source_col (feasibility_patch g source_row source_col)
          sd.source_tiles sd.unique_cell_count
      else acc2) acc) fl
  let target_row_start := min (spans.1.1 + 1) g.rows
  let target_row_end := min spans.1.2 g.rows
  let target_col_start := min (spans.2.1 + 1) g.cols
  let target_col_end := min spans.2.2 g.cols
  let feas1 := (spanList (target_row_start, target_row_end)).foldl
    (fun (facc : Arr2 ℚ) (target_row : Nat) =>
    (spanList (target_col_start, target_col_end)).foldl
      (fun (facc2 : Arr2 ℚ) (target_col : Nat) =>
      let sc := aggDeltas.foldl (fun a dr => aggDeltas.foldl (fun a2 dc =>
        let src_row : Int := (target_row : Int) + dr
        let src_col : Int := (target_col : Int) + dc
        if 0 ≤ src_row ∧ src_row < (g.rows : Int) ∧ 0 ≤ src_col ∧ src_col < (g.cols : Int)
        then (a2.1 + fl1.get_fraction src_row.toNat src_col.toNat, a2.2 + 1)
        else a2) a) ((0 : ℚ), (0 : Nat))
      if 0 < sc.2 then
        facc2.modify (target_row + 1) (target_col + 1) (fun _ => sc.1 / (sc.2 : ℚ))
      else facc2) facc) g.feasibility
  ({ g with feasibility := feas1 }, fl1)

/-- `DeadlockResolutionResult` (`src/algorithm/deadlock.rs`). -/
structure DeadlockResolutionResult where
  tiles_unlocked : Nat
  unlocked_positions : List (Nat × Nat)

/-- The cells collected for unlocking by `resolve_spatial_deadlock`:
`(row, col, locked - 1)` for every span cell whose sentinel exceeds 1. -/
def tiles_to_unlock (g : GridState) (spans : (Nat × Nat) × (Nat × Nat)) :
    List (Nat × Nat × Nat) :=
  (spanList spans.1).flatMap (fun row =>
    (spanList spans.2).filterMap (fun col =>
      let locked_val := g.locked_tiles.getD row col 0
      if 1 < locked_val then some (row, col, locked_val - 1) else none))

/-- The probability-division loop of `resolve_spatial_deadlock`'s unlock
pass: within the clamped window and the tensor view's shape, each color
below `unique_cell_count` is divided by its influence entry when that entry
is nonzero. -/
def divide_influence_probs (probs : List (Arr2 ℚ)) (unique_cell_count : Nat)
    (impact : Arr3 ℚ) (row_start row_end col_start col_end : Nat) : List (Arr2 ℚ) :=
  probs.mapIdx (fun color a =>
    a.withData (fun r c =>
      if row_start ≤ r ∧ r < row_end ∧ col_start ≤ c ∧ c < col_end ∧
          r - row_start < impact.d1 ∧ c - col_start < impact.d2 ∧
          color < unique_cell_count ∧ r < a.rows ∧ c < a.cols then
        let impact_value := (impact.get? color (r - row_start) (c - col_start)).getD 1
        if impact_value ≠ 0 then a.data r c / impact_value else a.data r c
      else a.data r c))

/-- One pass of the unlock loop of `resolve_spatial_deadlock`: restore the
sentinel, decrement the tally (`saturating_sub`), reverse the graded
adjacency increments, and divide the influence factors back out of the
probabilities over the clamped influence window (skipped entirely when the
tile reference is 0 or past the tensor, and per-entry when the stored
influence value is 0). -/
def unlock_one (g : GridState) (selection_tally : List Nat)
    (system_offset : Int × Int) (sd : StepData)
    (probability_influence_matrices : Arr4 ℚ) (rct : Nat × Nat × Nat) :
    GridState × List Nat :=
  let row := rct.1
  let col := rct.2.1
  let tile_reference := rct.2.2
  let newLocked := g.locked_tiles.modify row col (fun m => m - tile_reference)
  let g1 := { g with locked_tiles := newLocked }
  let tally1 :=
    if 1 ≤ tile_reference then
      selection_tally.set (tile_reference - 1)
        (selection_tally.getD (tile_reference - 1) 0 - 1)
    else selection_tally
  let coords : Int × Int := ((row : Int) - system_offset.1, (col : Int) - system_offset.2)
  let g2 := (List.range configuration.ADJACENCY_LEVELS).foldl (fun gacc lvl =>
    let level := lvl + 1
    let weight_decrement := 1 + configuration.ADJACENCY_LEVELS - level
    let aspans := get_region_spans system_offset coords (level : Int)
    let newAdj := gacc.adjacency_weights.modifyRegion aspans.1.1 aspans.1.2 aspans.2.1
      aspans.2.2 (fun w => w - weight_decrement)
    { gacc with adjacency_weights := newAdj }) g1
  let n_tiles := probability_influence_matrices.d0
  if tile_reference = 0 ∨ n_tiles < tile_reference then (g2, tally1)
  else
    let pspans := get_region_spans system_offset coords sd.grid_extension_radius
    let impact := probability_influence_matrices.index_axis0 (tile_reference - 1)
    let row_start := min pspans.1.1 g2.rows
    let row_end := min pspans.1.2 g2.rows
    let col_start := min pspans.2.1 g2.cols
    let col_end := min pspans.2.2 g2.cols
    let newProbs := divide_influence_probs g2.tile_probabilities sd.unique_cell_count
      impact row_start row_end col_start col_end
    ({ g2 with tile_probabilities := newProbs }, tally1)

/-- The per-cell entropy of the deadlock path: the mean divides by the
number of successful color reads (not `unique_cell_count`). -/
def deadlock_entropy_at (ops : FloatOps) (probs : List (Arr2 ℚ))
    (unique_cell_count : Nat) (row col : Nat) : ℚ :=
  let sc := (List.range unique_cell_count).foldl (fun a color =>
    match probs.get? color with
    | some m => match m.get? row col with
                | some p => (a.1 + p, a.2 + 1)
                | none => a
    | none => a) ((0 : ℚ), (0 : Nat))
  let mean_prob := if 0 < sc.2 then sc.1 / (sc.2 : ℚ) else 0
  if 0 < mean_prob then
    (List.range unique_cell_count).foldl (fun s color =>
      match probs.get? color with
      | some m => match m.get? row col with
                  | some p =>
                      let normalized := p / mean_prob
                      if 0 < normalized then s + normalized * ops.ln normalized else s
                  | none => s
      | none => s) 0
  else 0

/-- The unlock list `resolve_spatial_deadlock` collects: bump the removal
counter, read it back for the adaptive radius, and gather the placed cells
of the removal region. -/
def deadlock_unlock_list (g : GridState) (contradiction_pos : Nat × Nat)
    (system_offset : Int × Int) : List (Nat × Nat × Nat) :=
  let newRemoval := g.removal_count.modify contradiction_pos.1 contradiction_pos.2
    (fun c => min (c + 1) 255)
  let g1 := { g with removal_count := newRemoval }
  let contradiction_coords : Int × Int :=
    ((contradiction_pos.1 : Int) - system_offset.1, (contradiction_pos.2 : Int) - system_offset.2)
  let removal_count := g1.removal_count.getD contradiction_pos.1 contradiction_pos.2 0
  let removal_radius :=
    min (configuration.BASE_REMOVAL_RADIUS + (removal_count : Int))
      configuration.MAX_REMOVAL_RADIUS
  tiles_to_unlock g1 (get_region_spans system_offset contradiction_coords removal_radius)

/-- `resolve_spatial_deadlock` (`src/algorithm/deadlock.rs`): bump the
removal counter, unlock every placed cell in the adaptive-radius region
(reversing tally, adjacency and probability effects), then recompute
entropy over the extended radius (skipping placed cells) and the
feasibility scores over the extended radius with the squared aggregation.
Returns the updated grid, feasibility layer, tally, and the result
summary. -/
def resolve_spatial_deadlock (ops : FloatOps) (g : GridState)
    (fl : FeasibilityCountLayer) (contradiction_pos : Nat × Nat)
    (system_offset : Int × Int) (selection_tally : List Nat) (sd : StepData)
    (probability_influence_matrices : Arr4 ℚ) :
    GridState × FeasibilityCountLayer × List Nat × DeadlockResolutionResult :=
  let newRemoval := g.removal_count.modify contradiction_pos.1 contradiction_pos.2
    (fun c => min (c + 1) 255)
  let g1 := { g with removal_count := newRemoval }
  let contradiction_coords : Int × Int :=
    ((contradiction_pos.1 : Int) - system_offset.1, (contradiction_pos.2 : Int) - system_offset.2)
  let removal_count := g1.removal_count.getD contradiction_pos.1 contradiction_pos.2 0
  let removal_radius :=
    min (configuration.BASE_REMOVAL_RADIUS + (removal_count : Int))
      configuration.MAX_REMOVAL_RADIUS
  let to_unlock := deadlock_unlock_list g contradiction_pos system_offset
  let unlocked_positions := to_unlock.map (fun rct => (rct.1, rct.2.1))
  let gt := to_unlock.foldl (fun acc rct =>
    unlock_one acc.1 acc.2 system_offset sd probability_influence_matrices rct)
    (g1, selection_tally)
  let g2 := gt.1
  let tally2 := gt.2
  let entropy_radius := sd.grid_extension_radius + removal_radius
  let espans := get_region_spans system_offset contradiction_coords entropy_radius
  let newEntropy := g2.entropy.withData (fun row col =>
    if espans.1.1 ≤ row ∧ row < min espans.1.2 g2.rows ∧
        espans.2.1 ≤ col ∧ col < min espans.2.2 g2.cols ∧
        ¬ 1 < g2.locked_tiles.getD row col 0 ∧
        row < g2.rows ∧ col < g2.cols ∧
        row < g2.entropy.rows ∧ col < g2.entropy.cols then
      deadlock_entropy_at ops g2.tile_probabilities sd.unique_cell_count row col
    else g2.entropy.data row col)
  let g3 := { g2 with entropy := newEntropy }
  let feasibility_update_radius := ((configuration.ADJACENCY_LEVELS : Int) + 1) + removal_radius
  let fspans := get_region_spans system_offset contradiction_coords feasibility_update_radius
  let fl1 := (spanList fspans.1).foldl (fun acc source_row =>
    (spanList fspans.2).foldl (fun acc2 source_col =>
      if source_row + 2 < g3.rows ∧ source_col + 2 < g3.cols then
        acc2.update_count source_row source_col (feasibility_patch g3 source_row source_col)
          sd.source_tiles sd.unique_cell_count
      else acc2) acc) fl
  let feas1 := (spanList (fspans.1.1, min fspans.1.2 g3.rows)).foldl
    (fun (facc : Arr2 ℚ) (target_row : Nat) =>
    (spanList (fspans.2.1, min fspans.2.2 g3.cols)).foldl
      (fun (facc2 : Arr2 ℚ) (target_col : Nat) =>
      let sc := aggDeltas.foldl (fun a dr => aggDeltas.foldl (fun a2 dc =>
        let src_row : Int := (target_row : Int) + dr - 1
        let src_col : Int := (target_col : Int) + dc - 1
        if 0 ≤ src_row ∧ src_row < (g3.rows : Int) ∧ 0 ≤ src_col ∧ src_col < (g3.cols : Int)
        then
          let fraction := fl1.get_fraction src_row.toNat src_col.toNat
          (a2.1 + fraction * fraction, a2.2 + 1)
        else a2) a) ((0 : ℚ), (0 : Nat))
      if 0 < sc.2 then
        facc2.modify target_row target_col (fun _ => sc.1 / (sc.2 : ℚ))
      else facc2) facc) g3.feasibility
  ({ g3 with feasibility := feas1 }, fl1, tally2,
    ⟨to_unlock.length, unlocked_positions⟩)

/-- `PlacementDecision` (`src/algorithm/executor.rs`). -/
structure PlacementDecision where
  world_position : Int × Int
  tile_reference : Nat

/-- The state mutations of `GreedyStochastic::place_tile`
(`src/algorithm/executor.rs`): tally increment (`get_mut` misses when the
reference is 0), grid extension (with the feasibility layer resized on
extension), the fused probability/entropy update, locking plus adjacency
propagation, and the feasibility refresh.  Returns the new grid, offset,
tally and feasibility layer. -/
def place_tile (ops : FloatOps) (g : GridState) (system_offset : Int × Int)
    (selection_tally : List Nat) (fl : FeasibilityCountLayer)
    (probability_influence_matrices : Arr4 ℚ) (sd : StepData)
    (decision : PlacementDecision) :
    GridState × (Int × Int) × List Nat × FeasibilityCountLayer :=
  let tally1 :=
    if 1 ≤ decision.tile_reference then
      selection_tally.set (decision.tile_reference - 1)
        (selection_tally.getD (decision.tile_reference - 1) 0 + 1)
    else selection_tally
  let ext := g.extend_if_needed system_offset decision.world_position sd.grid_extension_radius
  let g1 := ext.1
  let off1 := ext.2.1
  let extended := ext.2.2
  let fl1 := if extended then fl.extend_to g1.rows g1.cols else fl
  let g2 := update_probabilities_and_entropy ops g1 probability_influence_matrices
    decision.tile_reference decision.world_position off1 sd
  let g3 := update_grid_state g2 decision.tile_reference decision.world_position off1
  let gf := update_feasibility_counts g3 fl1 decision.world_position off1 sd
  (gf.1, off1, tally1, gf.2)

/-- Sum of the selection tally. -/
def tally_sum (tally : List Nat) : Nat := tally.sum

/-- Number of grid cells whose `locked_tiles` sentinel equals `v`. -/
def locked_eq_count (g : GridState) (v : Nat) : Nat :=
  (((Finset.range g.rows) ×ˢ (Finset.range g.cols)).filter
    (fun rc => g.locked_tiles.getD rc.1 rc.2 0 = v)).card

/-- `f64::signum` (`signum(+0.0) = 1.0`; the model has no NaN or -0.0). -/
def signumQ (x : ℚ) : ℚ := if x < 0 then -1 else 1

/-- `erf` (`src/math/probability.rs`): the Abramowitz and Stegun 7.1.26
polynomial approximation, with `exp` abstract. -/
def erf (ops : FloatOps) (x : ℚ) : ℚ :=
  let a1 : ℚ := 0.254829592
  let a2 : ℚ := -0.284496736
  let a3 : ℚ := 1.421413741
  let a4 : ℚ := -1.453152027
  let a5 : ℚ := 1.061405429
  let p : ℚ := 0.3275911
  let sign : ℚ := if x < 0 then -1 else 1
  let x := |x|
  let t := 1 / (p * x + 1)
  let y := (((((a5 * t + a4) * t + a3) * t + a2) * t + a1) * t) * (-(ops.exp (-x * x))) + 1
  sign * y

/-- `binomial_normal_approximate_cdf` (`src/math/probability.rs`). -/
def binomial_normal_approximate_cdf (ops : FloatOps) (n : Nat) (p : ℚ) (k : Nat) : ℚ :=
  if n ≤ k then 1
  else if p ≤ 0 then (if k = 0 then 1 else 0)
  else if 1 ≤ p then 0
  else
    let mean := (n : ℚ) * p
    let variance := (n : ℚ) * p * (1 - p)
    let std_dev := ops.sqrt variance
    let z := ((k : ℚ) + 1/2 - mean) / (ops.sqrt2 * std_dev)
    1/2 * (1 - erf ops (-z))

/-- `get_tile_probabilities_at_position` (`src/algorithm/selection.rs`);
the `as usize` casts make any negative index read as 0.0, modelled by the
signed in-bounds guard. -/
def get_tile_probabilities_at_position (g : GridState)
    (position system_offset : Int × Int) : List ℚ :=
  let ri := position.1 + system_offset.1
  let ci := position.2 + system_offset.2
  (List.range g.unique_cell_count).map (fun i =>
    match g.tile_probabilities.get? i with
    | some a =>
        if 0 ≤ ri ∧ ri < (a.rows : Int) ∧ 0 ≤ ci ∧ ci < (a.cols : Int) then
          a.data ri.toNat ci.toNat
        else 0
    | none => 0)

/-- `calculate_projected_deviation` (`src/algorithm/selection.rs`). -/
def calculate_projected_deviation (ops : FloatOps) (source_ratios : List ℚ)
    (present_tally : List Nat) (probabilities deviations : List ℚ)
    (total_placed : Nat) : ℚ :=
  ((((source_ratios.zip present_tally).zip probabilities).zip deviations).map
    (fun x =>
      let ratio := x.1.1.1
      let placed := x.1.1.2
      let prob := x.1.2
      let dev := x.2
      let arg := (-(placed : ℚ) - prob + ratio + ratio * (total_placed : ℚ)) /
        (ops.sqrt 2 * ops.sqrt ((1 - ratio) * ratio * (1 + (total_placed : ℚ))))
      let term := -(1/2) * erf ops arg * signumQ dev
      term)).sum

/-- `calculate_deviation_derivative` (`src/algorithm/selection.rs`). -/
def calculate_deviation_derivative (ops : FloatOps) (source_ratios : List ℚ)
    (present_tally : List Nat) (probabilities deviations : List ℚ)
    (total_placed : Nat) : ℚ :=
  ((((source_ratios.zip present_tally).zip probabilities).zip deviations).map
    (fun x =>
      let ratio := x.1.1.1
      let placed := x.1.1.2
      let prob := x.1.2
      let dev := x.2
      let numerator := (ratio * (-(1 + (total_placed : ℚ))) + ((placed : ℚ) + prob)) ^ 2
      let denominator := 2 * (1 - ratio) * ratio * (1 + (total_placed : ℚ))
      let exp_term := ops.exp (-numerator / denominator)
      let sqrt_term := ops.sqrt (ops.pi * |denominator|)
      let derivative := exp_term * prob * ratio / sqrt_term
      let term := (-dev * |dev|) * derivative * signumQ dev
      term)).sum

/-- `optimal_density_correction` (`src/algorithm/selection.rs`); the three
density constants are hardcoded there. -/
def optimal_density_correction (ops : FloatOps) (probabilities : List ℚ)
    (present_tally : List Nat) (source_ratios deviations : List ℚ)
    (total_placed : Nat) : List ℚ :=
  let deviation := ((source_ratios.zip deviations).map (fun rd => rd.1 * |rd.2|)).sum
  let density_correction_threshold : ℚ := 0.10
  let density_correction_steepness : ℚ := 0.05
  let density_minimum_strength : ℚ := 0.10
  let correction_strength := 1 /
    (1 + ops.exp (-density_correction_steepness *
      (deviation * 200 + -density_correction_threshold)))
  let correction_strength := max correction_strength density_minimum_strength
  let projected_deviation :=
    calculate_projected_deviation ops source_ratios present_tally probabilities deviations
      total_placed
  let deviation_derivative :=
    calculate_deviation_derivative ops source_ratios present_tally probabilities deviations
      total_placed
  let density_improvement_target : ℚ := 0.05
  let target_deviation :=
    projected_deviation * (density_improvement_target * (-correction_strength) + 1)
  let scale := (target_deviation - projected_deviation) / deviation_derivative
  deviations.map (fun dev => scale * (-dev * |dev|))

/-- `density_corrected_log_tile_weights` (`src/algorithm/selection.rs`). -/
def density_corrected_log_tile_weights (ops : FloatOps) (viable_tiles : List Nat)
    (all_probabilities : List ℚ) (selection_tally : List Nat)
    (source_ratios : List ℚ) (total_placed : Nat) (deviations : List ℚ) : List ℚ :=
  let correction := optimal_density_correction ops all_probabilities selection_tally
    source_ratios deviations total_placed
  let viable_log_corrected := viable_tiles.map (fun tile_ref =>
    ops.ln (all_probabilities.getD (tile_ref - 1) 0) + correction.getD (tile_ref - 1) 0)
  let mean_log_prob := viable_log_corrected.sum / (viable_log_corrected.length : ℚ)
  viable_log_corrected.map (fun log_prob => log_prob - mean_log_prob)

/-- `WeightCalculationResult` (`src/analysis/weights.rs`). -/
structure WeightCalculationResult where
  adjacency_matrix : Arr2 ℚ
  weight_matrix : Arr2 ℚ
  validity_matrix : Arr2 Bool

/-- `calculate_position_selection` (`src/analysis/weights.rs`): deviations
from the binomial CDF, a density bias field, the squared adjacency score,
the combined weight, and the validity mask (locked cells and, under bounds,
out-of-bounds cells are invalid).  Each output cell is written once, so the
loops are rendered pointwise; cells never written keep their initial values
(0 for the score matrices, 1 for density bias, true for validity). -/
def calculate_position_selection (ops : FloatOps) (g : GridState)
    (selection_tally : List Nat) (sd : StepData) (system_offset : Int × Int) :
    WeightCalculationResult :=
  let total_placed := selection_tally.sum
  let deviations := (List.range sd.unique_cell_count).map (fun i =>
    binomial_normal_approximate_cdf ops total_placed (sd.source_ratios.getD i 0)
      (selection_tally.getD i 0) - 1/2)
  let max_deviation := (((sd.source_ratios.zip deviations).map
    (fun rd => rd.1 * |rd.2|)).sum) * 200
  let density_bias_strength := 1 /
    (1 + ops.exp (-sd.density_correction_steepness *
      (max_deviation - sd.density_correction_threshold)))
  let density_bias_strength := max density_bias_strength sd.density_minimum_strength
  let density_bias : Arr2 ℚ :=
    { rows := g.rows, cols := g.cols
      data := fun i j =>
        if i < g.rows ∧ j < g.cols then
          let dot_product := ((deviations.enum.take sd.unique_cell_count).map (fun kd =>
            let deviation := kd.2
            let sign_dev : ℚ := if 0 ≤ deviation then 1 else -1
            let exp_abs_dev := ops.exp |deviation|
            let matrix_val :=
              match g.tile_probabilities.get? kd.1 with
              | some a => (a.get? i j).getD 0
              | none => 0
            sign_dev * exp_abs_dev * matrix_val)).sum
          density_bias_strength * ops.exp dot_product + 1
        else 1 }
  let adjacency_weight_matrix : Arr2 ℚ :=
    { rows := g.rows, cols := g.cols
      data := fun i j =>
        if i < g.rows ∧ j < g.cols then
          let adj_val : ℚ := ((g.adjacency_weights.getD i j 0 - 1 : Nat) : ℚ)
          if 0 < adj_val then adj_val ^ 2 else 0
        else 0 }
  let validity_matrix : Arr2 Bool :=
    { rows := g.rows, cols := g.cols
      data := fun i j =>
        if i < g.rows ∧ j < g.cols then
          (decide (g.locked_tiles.getD i j 0 ≤ 1)) &&
          (match g.generation_bounds with
           | some bounds =>
               bounds.contains ((i : Int) - system_offset.1, (j : Int) - system_offset.2)
           | none => true)
        else true }
  let weight_matrix : Arr2 ℚ :=
    { rows := g.rows, cols := g.cols
      data := fun i j =>
        if i < g.rows ∧ j < g.cols then
          let entropy := g.entropy.getD i j 0
          let feasibility := g.feasibility.getD i j 0
          if 0 < entropy ∧ 0 < feasibility then
            (adjacency_weight_matrix.getD i j 0) * (density_bias.getD i j 1) /
              (feasibility * entropy)
          else 0
        else 0 }
  ⟨adjacency_weight_matrix, weight_matrix, validity_matrix⟩

/-- One push onto the bounded min-heap of the two top-k routines, modelled
with a list: below capacity append; at capacity, if the new value beats the
minimum, evict one minimal element and append.  The heap's internal
arrangement (which equal-valued minimum is evicted and the emission order)
is a deterministic function of the pushes in both the source and this
model. -/
def heapPush (k : Nat) (h : List ((Nat × Nat) × ℚ)) (e : (Nat × Nat) × ℚ) :
    List ((Nat × Nat) × ℚ) :=
  if h.length < k then h ++ [e]
  else
    match (h.map Prod.snd).min? with
    | none => h
    | some m => if m < e.2 then (h.eraseP (fun x => decide (x.2 = m))) ++ [e] else h

/-- `top_k_valid_indices` (`src/analysis/weights.rs`): top `k` cells by
value among the valid cells, in row-major push order. -/
def top_k_valid_indices (matrix : Arr2 ℚ) (validity : Arr2 Bool) (k : Nat) :
    List (Nat × Nat) :=
  let cells := (List.range matrix.rows).flatMap (fun i =>
    (List.range matrix.cols).map (fun j => (i, j)))
  (cells.foldl (fun h ij =>
    if validity.data ij.1 ij.2 then heapPush k h (ij, matrix.data ij.1 ij.2) else h)
    []).map Prod.fst

/-- `top_k_from_indices` (`src/analysis/weights.rs`). -/
def top_k_from_indices (matrix : Arr2 ℚ) (indices : List (Nat × Nat)) (k : Nat) :
    List (Nat × Nat) :=
  (indices.foldl (fun h ij => heapPush k h (ij, matrix.data ij.1 ij.2)) []).map Prod.fst

/-- The seeded generator (`StdRng`): an abstract stream of `f64` draws with a
cursor.  Seeding with the same seed yields the same stream. -/
structure Rng where
  stream : Nat → ℚ
  idx : Nat

/-- `rng.random::<f64>()`. -/
def Rng.next (r : Rng) : ℚ × Rng := (r.stream r.idx, { r with idx := r.idx + 1 })

/-- The cumulative walk of `weighted_choice`: first index where the running
remainder drops to 0 or below. -/
def weightedWalkAux : List ℚ → ℚ → Nat → Option Nat
  | [], _, _ => none
  | w :: rest, rand_val, i =>
      if rand_val - w ≤ 0 then some i else weightedWalkAux rest (rand_val - w) (i + 1)

/-- `RandomSelector::weighted_choice` (`src/algorithm/executor.rs`): returns
0 without drawing when the total is not positive, else one draw scaled by
the total walks the cumulative distribution (falling through to the last
index). -/
def weighted_choice (r : Rng) (weights : List ℚ) : Nat × Rng :=
  let total := weights.sum
  if total ≤ 0 then (0, r)
  else
    let d := r.next
    ((weightedWalkAux weights (d.1 * total) 0).getD (weights.length - 1), d.2)

/-- The cumulative walk of `log_weighted_choice` over `(index, shift)` pairs. -/
def logWalkAux (shift_sum : ℚ) : List (Nat × ℚ) → ℚ → ℚ → Option Nat
  | [], _, _ => none
  | (i, s) :: rest, cumulative, random_source =>
      let c2 := cumulative + s / shift_sum
      if random_source ≤ c2 then some i
      else logWalkAux shift_sum rest c2 random_source

/-- `RandomSelector::log_weighted_choice` (`src/algorithm/executor.rs`):
stable sort of the indices by descending weight, one draw, log-sum-exp
shift by the maximum, then a cumulative walk (falling through to the last
sorted index). -/
def log_weighted_choice (ops : FloatOps) (r : Rng) (log_weights : List ℚ) : Nat × Rng :=
  if log_weights.isEmpty then (0, r)
  else
    let indices := (List.range log_weights.length).mergeSort
      (fun a b => decide (log_weights.getD b 0 ≤ log_weights.getD a 0))
    let d := r.next
    let random_source := d.1
    let max_log_weight :=
      match indices.head? with
      | some idx => log_weights.getD idx 0
      | none => 0
    let shifts := indices.map (fun i => ops.exp (log_weights.getD i 0 - max_log_weight))
    let shift_sum := shifts.sum
    ((logWalkAux shift_sum (indices.zip shifts) 0 random_source).getD
      (indices.getLast?.getD 0), d.2)

/-- `select_initial_tile` (`src/algorithm/executor.rs`): a weighted draw over
the source ratios returning a 1-based reference (1 without drawing when the
total is not positive, the ratio count on fallthrough). -/
def select_initial_tile (source_ratios : List ℚ) (r : Rng) : Nat × Rng :=
  let total := source_ratios.sum
  if total ≤ 0 then (1, r)
  else
    let d := r.next
    (((weightedWalkAux source_ratios (d.1 * total) 0).map (fun i => i + 1)).getD
      source_ratios.length, d.2)

/-- `PrefillPlacement` (`src/io/prefill.rs`). -/
structure PrefillPlacement where
  world_position : Int × Int
  tile_reference : Nat

/-- `PrefillData` (`src/io/prefill.rs`); the protection `HashMap` is an
association list queried by key. -/
structure PrefillData where
  placement_queue : List PrefillPlacement
  protected_positions : List ((Int × Int) × Nat)
  bounds : BoundingBox

/-- `PrefillData::is_protected`. -/
def PrefillData.is_protected (pd : PrefillData) (world_pos : Int × Int) : Option Nat :=
  (pd.protected_positions.find? (fun e => decide (e.1 = world_pos))).map (fun e => e.2)

/-- `PrefillData::queue_replacement` (push to the front). -/
def PrefillData.queue_replacement (pd : PrefillData) (placement : PrefillPlacement) :
    PrefillData :=
  { pd with placement_queue := placement :: pd.placement_queue }

/-- `ForcedPosition` (`src/algorithm/propagation.rs`). -/
structure ForcedPosition where
  coordinates : Int × Int
  tile_reference : Nat

/-- `ForcedPipeline::add_positions`: append, deduplicated by coordinates
(first insertion wins). -/
def add_positions (queue : List ForcedPosition) (positions : List ForcedPosition) :
    List ForcedPosition :=
  positions.foldl (fun q pos =>
    if q.any (fun p => decide (p.coordinates = pos.coordinates)) then q else q ++ [pos]) queue

/-- `detect_forced_positions` (`src/algorithm/propagation.rs`): for each of
the eight neighbors of the placed cell that is inside bounds, inside the
grid, and not locked, record it when its viable set is a singleton. -/
def detect_forced_positions (g : GridState) (position system_offset : Int × Int)
    (sd : StepData) : List ForcedPosition :=
  (aggDeltas.flatMap (fun di => aggDeltas.map (fun dj => (di, dj)))).foldl
    (fun forced dd =>
      if dd.1 = 0 ∧ dd.2 = 0 then forced
      else
        let check_pos : Int × Int := (position.1 + dd.1, position.2 + dd.2)
        if (match g.generation_bounds with
            | some bounds => !bounds.contains check_pos
            | none => false) then forced
        else
          let ri := check_pos.1 + system_offset.1
          let ci := check_pos.2 + system_offset.2
          if ¬ (0 ≤ ri ∧ ri < (g.rows : Int) ∧ 0 ≤ ci ∧ ci < (g.cols : Int)) then forced
          else if 1 < g.locked_tiles.getD ri.toNat ci.toNat 0 then forced
          else
            let viable := compute_viable_tiles_at_position g check_pos system_offset
              sd.source_tiles sd.unique_cell_count
            if viable.length = 1 then
              match viable.head? with
              | some tile_ref => forced ++ [⟨check_pos, tile_ref⟩]
              | none => forced
            else forced) []

/-- `check_for_contradiction` (`src/algorithm/propagation.rs`): the first
cell in row-major order that is unplaced, has adjacency weight above 1, and
has an empty viable set. -/
def check_for_contradiction (g : GridState) (system_offset : Int × Int)
    (sd : StepData) : Option (Nat × Nat) :=
  ((List.range g.rows).flatMap (fun i => (List.range g.cols).map (fun j => (i, j)))).findSome?
    (fun ij =>
      if 1 < g.locked_tiles.getD ij.1 ij.2 0 then none
      else if 1 < g.adjacency_weights.getD ij.1 ij.2 0 then
        let coords : Int × Int :=
          ((ij.1 : Int) - system_offset.1, (ij.2 : Int) - system_offset.2)
        let viable := compute_viable_tiles_at_position g coords system_offset
          sd.source_tiles sd.unique_cell_count
        if viable.isEmpty then some ij else none
      else none)

/-- `AlgorithmConfig` (`src/algorithm/executor.rs`). -/
structure AlgorithmConfig where
  candidates_considered : Nat
  adjacency_candidates_considered : Nat
  pattern_influence_distance : Nat
  grid_extension_radius : Nat
  tile_size : Nat
  include_rotations : Bool
  include_reflections : Bool
  bounds : Option (Nat × Nat)

/-- `TileExtractor::rotate_90`. -/
def rotate_90 (t : Tile) : Tile := fun i j => t (finTarget j) i

/-- `TileExtractor::reflect`. -/
def reflect (t : Tile) : Tile := fun i j => t i (finTarget j)

/-- The flattened content key used to deduplicate tiles. -/
def tileKey (t : Tile) : List Nat :=
  (List.finRange 3).flatMap (fun r => (List.finRange 3).map (fun c => t r c))

/-- `TileExtractor::deduplicate_tiles`: keep the first occurrence of each
content key. -/
def deduplicate_tiles (tiles : List Tile) : List Tile :=
  tiles.foldl (fun acc t =>
    if acc.any (fun u => decide (tileKey u = tileKey t)) then acc else acc ++ [t]) []

/-- `TileExtractor::extract_tiles` (`src/spatial/tiles.rs`): slide the
window, optionally add the three rotations and then the reflections of
everything so far, and deduplicate.  Cells beyond `tile_size` stay 0 and
out-of-source reads are `unwrap_or(0)`. -/
def extract_tiles (source_data : Arr2 Nat) (tile_size : Nat)
    (include_rotations include_reflections : Bool) : List Tile :=
  let base_tiles := (List.range (source_data.rows - tile_size + 1)).flatMap (fun i =>
    (List.range (source_data.cols - tile_size + 1)).map (fun j =>
      (fun ti tj =>
        if ti.val < tile_size ∧ tj.val < tile_size then
          source_data.getD (i + ti.val) (j + tj.val) 0
        else 0 : Tile)))
  let all_tiles :=
    if include_rotations || include_reflections then
      base_tiles.flatMap (fun tile =>
        let transforms :=
          if include_rotations then
            let r90 := rotate_90 tile
            let r180 := rotate_90 r90
            let r270 := rotate_90 r180
            [tile, r90, r180, r270]
          else [tile]
        let transforms :=
          if include_reflections then transforms ++ transforms.map reflect
          else transforms
        transforms)
    else base_tiles
  deduplicate_tiles all_tiles

/-- The error kinds `run_iteration` can surface; `outOfFuel` is the model's
rendering of the unbounded deadlock-retry recursion in
`select_random_position`. -/
inductive AlgorithmError where
  | noValidPositions
  | outOfFuel

/-- `GreedyStochastic` (`src/algorithm/executor.rs`): the executor state.
The color mapping, memoization cache, and visualization/analysis captures
do not influence placements and are elided. -/
structure GreedyStochastic where
  step_data : StepData
  grid_state : GridState
  system_offset : Int × Int
  probability_influence_matrices : Arr4 ℚ
  selected_cell_reference : Nat
  selection_coordinates : Int × Int
  selection_tally : List Nat
  feasibility_layer : FeasibilityCountLayer
  random_selector : Rng
  forced_pipeline : List ForcedPosition
  iteration : Nat
  prefill_data : Option PrefillData
  initial_placement_done : Bool

/-- `GreedyStochastic::from_image_processor` (`src/algorithm/executor.rs`).
The exemplar-statistics preprocessing (out of the core's scope) is a pure
function of the exemplar and config; its output tensor is taken as the
`probability_influence_matrices` input.  Both `StdRng::seed_from_u64(seed)`
instances (the initial-tile draw and the run selector) start the same
stream determined by the seed. -/
def GreedyStochastic.from_image_processor (source_data : Arr2 Nat)
    (source_ratios : List ℚ) (unique_cell_count : Nat)
    (probability_influence_matrices : Arr4 ℚ) (config : AlgorithmConfig)
    (seed_stream : Nat → ℚ) : GreedyStochastic :=
  let source_tiles := extract_tiles source_data config.tile_size
    config.include_rotations config.include_reflections
  let rng0 : Rng := ⟨seed_stream, 0⟩
  let ir := select_initial_tile source_ratios rng0
  let selection_coordinates : Int × Int := (0, 0)
  let selection_tally := List.replicate unique_cell_count 0
  let g0 := GridState.new 1 1 unique_cell_count
  let g1 :=
    match config.bounds with
    | some wh =>
        let half_width := (wh.1 : Int) / 2
        let half_height := (wh.2 : Int) / 2
        let bb : BoundingBox :=
          ⟨(-half_width, -half_height), (half_width - 1, half_height - 1)⟩
        { g0 with generation_bounds := some bb }
    | none => g0
  let ext := g1.extend_if_needed (0, 0) selection_coordinates
    (config.grid_extension_radius : Int)
  let g2 := ext.1
  let sd : StepData :=
    ⟨source_ratios, unique_cell_count, (config.grid_extension_radius : Int),
      0.10, 0.05, 0.10, source_tiles⟩
  { step_data := sd
    grid_state := g2
    system_offset := ext.2.1
    probability_influence_matrices := probability_influence_matrices
    selected_cell_reference := ir.1
    selection_coordinates := selection_coordinates
    selection_tally := selection_tally
    feasibility_layer := FeasibilityCountLayer.new g2.rows g2.cols source_tiles.length
    random_selector := ⟨seed_stream, 0⟩
    forced_pipeline := []
    iteration := 0
    prefill_data := none
    initial_placement_done := false }

/-- `GreedyStochastic::resolve_deadlock` (`src/algorithm/executor.rs`): run
the spatial resolution and re-queue prefill replacements for any removed
protected position. -/
def GreedyStochastic.resolve_deadlock (ops : FloatOps) (e : GreedyStochastic)
    (contradiction_pos : Nat × Nat) : GreedyStochastic :=
  let r := resolve_spatial_deadlock ops e.grid_state e.feasibility_layer contradiction_pos
    e.system_offset e.selection_tally e.step_data e.probability_influence_matrices
  let e1 := { e with
    grid_state := r.1
    feasibility_layer := r.2.1
    selection_tally := r.2.2.1 }
  match e1.prefill_data with
  | none => e1
  | some prefill =>
      let prefill2 := r.2.2.2.unlocked_positions.foldl (fun pf rc =>
        let world_pos : Int × Int :=
          ((rc.1 : Int) - e.system_offset.1, (rc.2 : Int) - e.system_offset.2)
        match pf.is_protected world_pos with
        | some tile_ref => pf.queue_replacement ⟨world_pos, tile_ref⟩
        | none => pf) prefill
      { e1 with prefill_data := some prefill2 }

/-- `GreedyStochastic::select_random_position` (`src/algorithm/executor.rs`)
with explicit fuel for the deadlock-retry recursion.  The state is returned
on every path because the source mutates `self` in place. -/
def select_random_position (ops : FloatOps) :
    Nat → GreedyStochastic → (Except AlgorithmError PlacementDecision) × GreedyStochastic
  | 0, e => (.error .outOfFuel, e)
  | fuel + 1, e =>
    let weight_result := calculate_position_selection ops e.grid_state e.selection_tally
      e.step_data e.system_offset
    let adjacency_candidates := top_k_valid_indices weight_result.adjacency_matrix
      weight_result.validity_matrix selection.ADJACENCY_CANDIDATES_CONSIDERED
    let selection_candidates := top_k_from_indices weight_result.weight_matrix
      adjacency_candidates selection.CANDIDATES_CONSIDERED
    let candidate_weights := selection_candidates.map (fun ij =>
      weight_result.weight_matrix.getD ij.1 ij.2 0)
    if selection_candidates.isEmpty then (.error .noValidPositions, e)
    else
      let wc := weighted_choice e.random_selector candidate_weights
      let e1 := { e with random_selector := wc.2 }
      let selected_pos := selection_candidates.getD wc.1 (0, 0)
      let world_position : Int × Int :=
        ((selected_pos.1 : Int) - e1.system_offset.1, (selected_pos.2 : Int) - e1.system_offset.2)
      let viable_tiles := compute_viable_tiles_at_position e1.grid_state world_position
        e1.system_offset e1.step_data.source_tiles e1.step_data.unique_cell_count
      if viable_tiles.isEmpty then
        let e2 := GreedyStochastic.resolve_deadlock ops e1 selected_pos
        let e3 := { e2 with forced_pipeline := [] }
        select_random_position ops fuel e3
      else
        let probabilities := get_tile_probabilities_at_position e1.grid_state world_position
          e1.system_offset
        let total_placed := e1.selection_tally.sum
        let prob_buffer := (List.range e1.step_data.unique_cell_count).map (fun i =>
          binomial_normal_approximate_cdf ops total_placed
            (e1.step_data.source_ratios.getD i 0) (e1.selection_tally.getD i 0) - 1/2)
        let log_corrected_weights := density_corrected_log_tile_weights ops viable_tiles
          probabilities e1.selection_tally e1.step_data.source_ratios total_placed
          prob_buffer
        let lwc := log_weighted_choice ops e1.random_selector log_corrected_weights
        let e2 := { e1 with random_selector := lwc.2 }
        let tile_reference := viable_tiles.getD lwc.1 1
        (.ok ⟨world_position, tile_reference⟩, e2)

/-- The prefill drain of `get_placement_decision`: pop until a placement
whose cell is still empty (or outside the current grid) is found. -/
def prefill_drain (g : GridState) (system_offset : Int × Int) :
    List PrefillPlacement → Option (PlacementDecision × List PrefillPlacement)
  | [] => none
  | placement :: rest =>
    let ri := placement.world_position.1 + system_offset.1
    let ci := placement.world_position.2 + system_offset.2
    let is_valid :=
      if 0 ≤ ri ∧ ri < (g.rows : Int) ∧ 0 ≤ ci ∧ ci < (g.cols : Int) then
        g.locked_tiles.getD ri.toNat ci.toNat 0 ≤ 1
      else True
    if is_valid then some (⟨placement.world_position, placement.tile_reference⟩, rest)
    else prefill_drain g system_offset rest

/-- The forced-pipeline drain of `get_placement_decision`: pop until a still
empty in-grid cell is found (out-of-grid entries are invalid here). -/
def forced_drain (g : GridState) (system_offset : Int × Int) :
    List ForcedPosition → Option (PlacementDecision × List ForcedPosition)
  | [] => none
  | forced :: rest =>
    let ri := forced.coordinates.1 + system_offset.1
    let ci := forced.coordinates.2 + system_offset.2
    let is_valid :=
      if 0 ≤ ri ∧ ri < (g.rows : Int) ∧ 0 ≤ ci ∧ ci < (g.cols : Int) then
        g.locked_tiles.getD ri.toNat ci.toNat 0 ≤ 1
      else False
    if is_valid then some (⟨forced.coordinates, forced.tile_reference⟩, rest)
    else forced_drain g system_offset rest

/-- `GreedyStochastic::get_placement_decision`: one-shot initial seed, then
prefill queue, then forced pipeline, then stochastic selection. -/
def get_placement_decision (ops : FloatOps) (fuel : Nat) (e : GreedyStochastic) :
    (Except AlgorithmError PlacementDecision) × GreedyStochastic :=
  if ¬ e.initial_placement_done ∧ e.prefill_data.isNone then
    (.ok ⟨e.selection_coordinates, e.selected_cell_reference⟩,
      { e with initial_placement_done := true })
  else
    let afterPrefill :
        (Option PlacementDecision) × GreedyStochastic :=
      match e.prefill_data with
      | some prefill =>
          match prefill_drain e.grid_state e.system_offset prefill.placement_queue with
          | some dr =>
              (some dr.1,
                { e with prefill_data := some { prefill with placement_queue := dr.2 } })
          | none =>
              (none, { e with prefill_data := some { prefill with placement_queue := [] } })
      | none => (none, e)
    match afterPrefill.1 with
    | some d => (.ok d, afterPrefill.2)
    | none =>
        let e1 := afterPrefill.2
        match forced_drain e1.grid_state e1.system_offset e1.forced_pipeline with
        | some dr => (.ok dr.1, { e1 with forced_pipeline := dr.2 })
        | none => select_random_position ops fuel { e1 with forced_pipeline := [] }

/-- The executor's application of `place_tile`: record the selection and
apply the grid/tally/feasibility mutations. -/
def GreedyStochastic.place (ops : FloatOps) (e : GreedyStochastic)
    (decision : PlacementDecision) : GreedyStochastic :=
  let r := place_tile ops e.grid_state e.system_offset e.selection_tally
    e.feasibility_layer e.probability_influence_matrices e.step_data decision
  { e with
    grid_state := r.1
    system_offset := r.2.1
    selection_tally := r.2.2.1
    feasibility_layer := r.2.2.2
    selected_cell_reference := decision.tile_reference
    selection_coordinates := decision.world_position }

/-- `GreedyStochastic::post_placement_updates`: detect forced neighbors,
then resolve any contradiction (dropping the forced pipeline). -/
def post_placement_updates (ops : FloatOps) (e : GreedyStochastic) : GreedyStochastic :=
  let new_forced := detect_forced_positions e.grid_state e.selection_coordinates
    e.system_offset e.step_data
  let e1 := { e with forced_pipeline := add_positions e.forced_pipeline new_forced }
  match check_for_contradiction e1.grid_state e1.system_offset e1.step_data with
  | some pos =>
      let e2 := GreedyStochastic.resolve_deadlock ops e1 pos
      { e2 with forced_pipeline := [] }
  | none => e1

/-- The `i32 → usize` cast (sign-extension then reinterpretation). -/
def usizeCast (x : Int) : Nat := (x % (2 ^ 64 : Int)).toNat

/-- `GreedyStochastic::check_completion` (`src/algorithm/executor.rs`):
completion iff bounds are set and the tally sum reaches the bounds'
width-times-height (computed with the source's `as usize` casts). -/
def check_completion (e : GreedyStochastic) : Bool :=
  match e.grid_state.generation_bounds with
  | some bounds =>
      let filled_positions := e.selection_tally.sum
      let width := usizeCast (bounds.max.1 - bounds.min.1 + 1)
      let height := usizeCast (bounds.max.2 - bounds.min.2 + 1)
      let positions_in_bounds := (width * height) % (2 ^ 64)
      decide (positions_in_bounds ≤ filled_positions)
  | none => false

/-- `GreedyStochastic::run_iteration` (`src/algorithm/executor.rs`):
`Ok false` reports completion, `Ok true` a placement; errors surface with
the state as mutated so far. -/
def run_iteration (ops : FloatOps) (fuel : Nat) (e : GreedyStochastic) :
    (Except AlgorithmError Bool) × GreedyStochastic :=
  let e0 := { e with iteration := e.iteration + 1 }
  if check_completion e0 then (.ok false, e0)
  else
    match get_placement_decision ops fuel e0 with
    | (.error err, e1) => (.error err, e1)
    | (.ok decision, e1) =>
        let e2 := GreedyStochastic.place ops e1 decision
        let e3 := post_placement_updates ops e2
        (.ok true, e3)

/-- The observable placement sequence: the `(world_coord, tile_id)` of each
successful `run_iteration`, stopping at completion or error. -/
def run_trace (ops : FloatOps) (fuel : Nat) :
    Nat → GreedyStochastic → List ((Int × Int) × Nat)
  | 0, _ => []
  | n + 1, e =>
    match run_iteration ops fuel e with
    | (.ok true, e1) =>
        (e1.selection_coordinates, e1.selected_cell_reference) ::
          run_trace ops fuel n e1
    | (.ok false, _) => []
    | (.error _, _) => []

/-- `GreedyStochastic::apply_prefill` (`src/algorithm/executor.rs`): grow the
grid to contain the four corners of the prefill bounds, expand the
generation bounds (if any) to contain the prefill bounds, and store the
prefill data. -/
def GreedyStochastic.apply_prefill (e : GreedyStochastic) (prefill_data : PrefillData) :
    GreedyStochastic :=
  let min_coords := prefill_data.bounds.min
  let max_coords := prefill_data.bounds.max
  let corners : List (Int × Int) :=
    [min_coords, max_coords, (min_coords.1, max_coords.2), (max_coords.1, min_coords.2)]
  let e1 := corners.foldl (fun acc corner =>
    let ext := acc.grid_state.extend_if_needed acc.system_offset corner
      acc.step_data.grid_extension_radius
    { acc with grid_state := ext.1, system_offset := ext.2.1 }) e
  let e2 :=
    match e1.grid_state.generation_bounds with
    | some gen_bounds =>
        if !gen_bounds.contains min_coords || !gen_bounds.contains max_coords then
          let nb : BoundingBox :=
            ⟨(min gen_bounds.min.1 min_coords.1, min gen_bounds.min.2 min_coords.2),
             (max gen_bounds.max.1 max_coords.1, max gen_bounds.max.2 max_coords.2)⟩
          { e1 with grid_state := { e1.grid_state with generation_bounds := some nb } }
        else e1
    | none => e1
  { e2 with prefill_data := some prefill_data }

/-- A complete run setup: construct the executor from the exemplar package,
configuration and seed stream, then optionally apply prefill (the one-time
call made before the first iteration). -/
def mk_run (source_data : Arr2 Nat) (source_ratios : List ℚ)
    (unique_cell_count : Nat) (probability_influence_matrices : Arr4 ℚ)
    (config : AlgorithmConfig) (seed_stream : Nat → ℚ)
    (prefill : Option PrefillData) : GreedyStochastic :=
  let e := GreedyStochastic.from_image_processor source_data source_ratios
    unique_cell_count probability_influence_matrices config seed_stream
  match prefill with
  | some p => e.apply_prefill p
  | none => e

/-- The shape-consistency invariant: all six fields share the grid's
dimensions. -/
def GridState.shape_ok (g : GridState) : Prop :=
  g.entropy.rows = g.rows ∧ g.entropy.cols = g.cols ∧
  g.adjacency_weights.rows = g.rows ∧ g.adjacency_weights.cols = g.cols ∧
  g.locked_tiles.rows = g.rows ∧ g.locked_tiles.cols = g.cols ∧
  g.feasibility.rows = g.rows ∧ g.feasibility.cols = g.cols ∧
  g.removal_count.rows = g.rows ∧ g.removal_count.cols = g.cols ∧
  ∀ a ∈ g.tile_probabilities, a.rows = g.rows ∧ a.cols = g.cols

/-! Theorems. -/

/-- Pointwise implication gives the all-test on zipped boolean maps. -/
theorem zip_map_all_imp {α : Type} (l : List α) (f g : α → Bool)
    (h : ∀ x ∈ l, f x = true → g x = true) :
    ((l.map f).zip (l.map g)).all (fun pr => !pr.1 || pr.2) = true := by
  induction l with
  | nil => rfl
  | cons a l ih =>
      simp only [List.map_cons, List.zip_cons_cons, List.all_cons, Bool.and_eq_true]
      refine ⟨?_, ih (fun x hx hfx => h x (List.mem_cons_of_mem a hx) hfx)⟩
      by_cases hf : f a = true
      · simp [h a (List.mem_cons_self a l) hf]
      · simp [Bool.eq_false_iff.mpr hf]

/-- Claim C1: for every two runs constructed with identical seed, exemplar
data (source ratios, color count, influence tensor), tile-extraction flags
and bounds (via the configuration), and prefill, the sequence of
`(world_coord, tile_id)` placements produced by successive `run_iteration`
calls is identical. -/
theorem C1_determinism (ops : FloatOps) (fuel n : Nat)
    (src1 src2 : Arr2 Nat) (ratios1 ratios2 : List ℚ) (U1 U2 : Nat)
    (infl1 infl2 : Arr4 ℚ) (cfg1 cfg2 : AlgorithmConfig)
    (stream1 stream2 : Nat → ℚ) (prefill1 prefill2 : Option PrefillData)
    (hsrc : src1 = src2) (hratios : ratios1 = ratios2) (hU : U1 = U2)
    (hinfl : infl1 = infl2) (hcfg : cfg1 = cfg2) (hstream : stream1 = stream2)
    (hprefill : prefill1 = prefill2) :
    run_trace ops fuel n (mk_run src1 ratios1 U1 infl1 cfg1 stream1 prefill1) =
      run_trace ops fuel n (mk_run src2 ratios2 U2 infl2 cfg2 stream2 prefill2) := by
  subst hsrc; subst hratios; subst hU; subst hinfl; subst hcfg; subst hstream
  subst hprefill; rfl

/-- Witness for C1 at a concrete run. -/
theorem C1_determinism_witness :
    run_trace ⟨id, id, id, 3, 1⟩ 2 1
      (mk_run (Arr2.const 1 1 1) [1] 1 ⟨1, 1, 1, 1, fun _ _ _ _ => 1⟩
        ⟨15, 30, 6, 6, 3, false, false, none⟩ (fun _ => 0) none) =
    run_trace ⟨id, id, id, 3, 1⟩ 2 1
      (mk_run (Arr2.const 1 1 1) [1] 1 ⟨1, 1, 1, 1, fun _ _ _ _ => 1⟩
        ⟨15, 30, 6, 6, 3, false, false, none⟩ (fun _ => 0) none) :=
  C1_determinism ⟨id, id, id, 3, 1⟩ 2 1 (Arr2.const 1 1 1) (Arr2.const 1 1 1)
    [1] [1] 1 1 ⟨1, 1, 1, 1, fun _ _ _ _ => 1⟩ ⟨1, 1, 1, 1, fun _ _ _ _ => 1⟩
    ⟨15, 30, 6, 6, 3, false, false, none⟩ ⟨15, 30, 6, 6, 3, false, false, none⟩
    (fun _ => 0) (fun _ => 0) none none rfl rfl rfl rfl rfl rfl rfl

/-- Claim C10: the stochastic position selector uses the algorithm-module
constants (top 20 by adjacency, then top 15 by weight) and never reads
`AlgorithmConfig::adjacency_candidates_considered` (whose configuration
default is 30) or `AlgorithmConfig::candidates_considered`; two runs that
differ only in those two configuration fields produce identical placement
sequences. -/
theorem C10_candidate_constants (ops : FloatOps) (fuel n : Nat)
    (src : Arr2 Nat) (ratios : List ℚ) (U : Nat) (infl : Arr4 ℚ)
    (cfg1 cfg2 : AlgorithmConfig) (stream : Nat → ℚ) (prefill : Option PrefillData)
    (h1 : cfg1.pattern_influence_distance = cfg2.pattern_influence_distance)
    (h2 : cfg1.grid_extension_radius = cfg2.grid_extension_radius)
    (h3 : cfg1.tile_size = cfg2.tile_size)
    (h4 : cfg1.include_rotations = cfg2.include_rotations)
    (h5 : cfg1.include_reflections = cfg2.include_reflections)
    (h6 : cfg1.bounds = cfg2.bounds) :
    run_trace ops fuel n (mk_run src ratios U infl cfg1 stream prefill) =
      run_trace ops fuel n (mk_run src ratios U infl cfg2 stream prefill) ∧
    selection.ADJACENCY_CANDIDATES_CONSIDERED = 20 ∧
    selection.CANDIDATES_CONSIDERED = 15 ∧
    configuration.ADJACENCY_CANDIDATES_CONSIDERED = 30 ∧
    configuration.CANDIDATES_CONSIDERED = 15 := by
  obtain ⟨a1, b1, c1, d1, e1, f1, g1, i1⟩ := cfg1
  obtain ⟨a2, b2, c2, d2, e2, f2, g2, i2⟩ := cfg2
  simp only at h1 h2 h3 h4 h5 h6
  subst h1; subst h2; subst h3; subst h4; subst h5; subst h6
  exact ⟨rfl, rfl, rfl, rfl, rfl⟩

/-- Witness for C10 at a concrete pair of configurations differing only in
the two candidate-count fields. -/
theorem C10_candidate_constants_witness :
    run_trace ⟨id, id, id, 3, 1⟩ 2 1
      (mk_run (Arr2.const 1 1 1) [1] 1 ⟨1, 1, 1, 1, fun _ _ _ _ => 1⟩
        ⟨15, 30, 6, 6, 3, false, false, none⟩ (fun _ => 0) none) =
    run_trace ⟨id, id, id, 3, 1⟩ 2 1
      (mk_run (Arr2.const 1 1 1) [1] 1 ⟨1, 1, 1, 1, fun _ _ _ _ => 1⟩
        ⟨7, 99, 6, 6, 3, false, false, none⟩ (fun _ => 0) none) :=
  (C10_candidate_constants ⟨id, id, id, 3, 1⟩ 2 1 (Arr2.const 1 1 1) [1] 1
    ⟨1, 1, 1, 1, fun _ _ _ _ => 1⟩ ⟨15, 30, 6, 6, 3, false, false, none⟩
    ⟨7, 99, 6, 6, 3, false, false, none⟩ (fun _ => 0) none
    rfl rfl rfl rfl rfl rfl).1

/-- When an unconstrained extension fires, the new offset is the old offset
shifted by the paddings. -/
theorem calc_ext_offset (dims : Nat × Nat) (off c : Int × Int) (r : Int)
    (h : (calculate_extension dims off c r).needs_extension = true) :
    (calculate_extension dims off c r).new_offset =
      (off.1 + ((calculate_extension dims off c r).pad_left : Int),
       off.2 + ((calculate_extension dims off c r).pad_top : Int)) := by
  unfold calculate_extension at h ⊢
  simp only at h ⊢
  rw [h]
  simp

/-- The same for the bounds-constrained extension. -/
theorem constrain_ext_offset (g : GridState) (info0 : ExtensionInfo)
    (bounds : BoundingBox) (off : Int × Int)
    (h : (g.constrain_extension info0 bounds off).needs_extension = true) :
    (g.constrain_extension info0 bounds off).new_offset =
      (off.1 + ((g.constrain_extension info0 bounds off).pad_left : Int),
       off.2 + ((g.constrain_extension info0 bounds off).pad_top : Int)) := by
  unfold GridState.constrain_extension at h ⊢
  simp only at h ⊢
  rw [h]
  simp

/-- When an extension fires, the returned offset is the old offset shifted
by the row/column paddings. -/
theorem extension_info_offset (g : GridState) (off c : Int × Int) (r : Int)
    (h : (g.extension_info off c r).needs_extension = true) :
    (g.extension_info off c r).new_offset =
      (off.1 + ((g.extension_info off c r).pad_left : Int),
       off.2 + ((g.extension_info off c r).pad_top : Int)) := by
  unfold GridState.extension_info at h ⊢
  cases hgb : g.generation_bounds with
  | none =>
      simp only [hgb] at h ⊢
      exact calc_ext_offset _ _ _ _ h
  | some bounds =>
      simp only [hgb] at h ⊢
      exact constrain_ext_offset _ _ _ _ h

/-- Data inside the old interior is preserved by `extend_array_2d` at the
padded index. -/
theorem extend_array_2d_data {α : Type} (a : Arr2 α) (info : ExtensionInfo) (pv : α)
    (i j : Nat) (hne : info.needs_extension = true) (hi : i < a.rows) (hj : j < a.cols) :
    (extend_array_2d a info pv).data (i + info.pad_left) (j + info.pad_top) =
      a.data i j := by
  have h1 : i + info.pad_left - info.pad_left = i := by omega
  have h2 : j + info.pad_top - info.pad_top = j := by omega
  unfold extend_array_2d
  rw [hne]
  simp only
  show (if info.pad_left ≤ i + info.pad_left ∧ i + info.pad_left < info.pad_left + a.rows ∧
      info.pad_top ≤ j + info.pad_top ∧ j + info.pad_top < info.pad_top + a.cols then
      a.data (i + info.pad_left - info.pad_left) (j + info.pad_top - info.pad_top) else pv) =
    a.data i j
  rw [if_pos ⟨by omega, by omega, by omega, by omega⟩, h1, h2]

/-- Claim C7: `GridState::extend_if_needed` never decreases either grid
dimension, and for every cell that existed before the call, each of the six
fields holds the same value at that cell's world coordinate (grid index
minus offset) after the call as before. -/
theorem C7_extension_frame (g : GridState) (off coords : Int × Int) (radius : Int)
    (hshape : g.shape_ok) :
    (g.rows ≤ (g.extend_if_needed off coords radius).1.rows ∧
     g.cols ≤ (g.extend_if_needed off coords radius).1.cols) ∧
    ∀ w : Int × Int, 0 ≤ w.1 + off.1 → w.1 + off.1 < (g.rows : Int) →
      0 ≤ w.2 + off.2 → w.2 + off.2 < (g.cols : Int) →
      ((g.extend_if_needed off coords radius).1.entropy.data
          (w.1 + (g.extend_if_needed off coords radius).2.1.1).toNat
          (w.2 + (g.extend_if_needed off coords radius).2.1.2).toNat =
        g.entropy.data (w.1 + off.1).toNat (w.2 + off.2).toNat) ∧
      ((g.extend_if_needed off coords radius).1.adjacency_weights.data
          (w.1 + (g.extend_if_needed off coords radius).2.1.1).toNat
          (w.2 + (g.extend_if_needed off coords radius).2.1.2).toNat =
        g.adjacency_weights.data (w.1 + off.1).toNat (w.2 + off.2).toNat) ∧
      ((g.extend_if_needed off coords radius).1.locked_tiles.data
          (w.1 + (g.extend_if_needed off coords radius).2.1.1).toNat
          (w.2 + (g.extend_if_needed off coords radius).2.1.2).toNat =
        g.locked_tiles.data (w.1 + off.1).toNat (w.2 + off.2).toNat) ∧
      ((g.extend_if_needed off coords radius).1.feasibility.data
          (w.1 + (g.extend_if_needed off coords radius).2.1.1).toNat
          (w.2 + (g.extend_if_needed off coords radius).2.1.2).toNat =
        g.feasibility.data (w.1 + off.1).toNat (w.2 + off.2).toNat) ∧
      ((g.extend_if_needed off coords radius).1.removal_count.data
          (w.1 + (g.extend_if_needed off coords radius).2.1.1).toNat
          (w.2 + (g.extend_if_needed off coords radius).2.1.2).toNat =
        g.removal_count.data (w.1 + off.1).toNat (w.2 + off.2).toNat) ∧
      ∀ c : Nat,
        (g.extend_if_needed off coords radius).1.probData c
            (w.1 + (g.extend_if_needed off coords radius).2.1.1).toNat
            (w.2 + (g.extend_if_needed off coords radius).2.1.2).toNat =
          g.probData c (w.1 + off.1).toNat (w.2 + off.2).toNat := by
  obtain ⟨he1, he2, ha1, ha2, hl1, hl2, hf1, hf2, hm1, hm2, hp⟩ := hshape
  by_cases hne : (g.extension_info off coords radius).needs_extension = true
  · have hoff := extension_info_offset g off coords radius hne
    unfold GridState.extend_if_needed
    simp only [hne, if_true, hoff]
    constructor
    · constructor
      · show g.rows ≤ g.rows + (g.extension_info off coords radius).pad_left +
          (g.extension_info off coords radius).pad_right
        omega
      · show g.cols ≤ g.cols + (g.extension_info off coords radius).pad_top +
          (g.extension_info off coords radius).pad_bottom
        omega
    · intro w hw1 hw2 hw3 hw4
      have hrow : (w.1 + (off.1 + ((g.extension_info off coords radius).pad_left : Int))).toNat
          = (w.1 + off.1).toNat + (g.extension_info off coords radius).pad_left := by
        omega
      have hcol : (w.2 + (off.2 + ((g.extension_info off coords radius).pad_top : Int))).toNat
          = (w.2 + off.2).toNat + (g.extension_info off coords radius).pad_top := by
        omega
      simp only [hrow, hcol]
      refine ⟨?_, ?_, ?_, ?_, ?_, ?_⟩
      · exact extend_array_2d_data _ _ _ _ _ hne (by omega) (by omega)
      · exact extend_array_2d_data _ _ _ _ _ hne (by omega) (by omega)
      · exact extend_array_2d_data _ _ _ _ _ hne (by omega) (by omega)
      · exact extend_array_2d_data _ _ _ _ _ hne (by omega) (by omega)
      · exact extend_array_2d_data _ _ _ _ _ hne (by omega) (by omega)
      · intro c
        unfold GridState.probData
        simp only [List.get?_map]
        cases hgc : g.tile_probabilities.get? c with
        | none => rfl
        | some a =>
            obtain ⟨har, hac⟩ := hp a (List.get?_mem hgc)
            simp only [Option.map_some]
            exact extend_array_2d_data _ _ _ _ _ hne (by omega) (by omega)
  · simp only [Bool.not_eq_true] at hne
    have hres : g.extend_if_needed off coords radius = (g, off, false) := by
      unfold GridState.extend_if_needed
      simp [hne]
    rw [hres]
    exact ⟨⟨le_refl _, le_refl _⟩, fun w _ _ _ _ =>
      ⟨rfl, rfl, rfl, rfl, rfl, fun c => rfl⟩⟩

/-- Witness for C7: extending a fresh grid preserves the original cell. -/
theorem C7_extension_frame_witness :
    1 ≤ ((GridState.new 1 1 1).extend_if_needed (0, 0) (2, 0) 0).1.rows ∧
    ((GridState.new 1 1 1).extend_if_needed (0, 0) (2, 0) 0).1.locked_tiles.data
        ((0 : Int) + ((GridState.new 1 1 1).extend_if_needed (0, 0) (2, 0) 0).2.1.1).toNat
        ((0 : Int) + ((GridState.new 1 1 1).extend_if_needed (0, 0) (2, 0) 0).2.1.2).toNat =
      (GridState.new 1 1 1).locked_tiles.data ((0 : Int) + 0).toNat ((0 : Int) + 0).toNat := by
  have h := C7_extension_frame (GridState.new 1 1 1) (0, 0) (2, 0) 0
    (by
      refine ⟨rfl, rfl, rfl, rfl, rfl, rfl, rfl, rfl, rfl, rfl, ?_⟩
      intro a ha
      rw [List.eq_of_mem_replicate ha]
      exact ⟨rfl, rfl⟩)
  exact ⟨h.1.1, (h.2 (0, 0) (by decide) (by decide) (by decide) (by decide)).2.2.1⟩

/-- Claim C8 (refuting evaluation): the claim says grid extension fills new
`removal_count` cells with that field's initial value 0; the code pads with
`u8::padding_value() = 1`, while `GridState::new` zero-initializes the same
field.  Extending a fresh 1-by-1 grid to cover world coordinate (1, 0)
gives the new cell removal count 1, not 0. -/
theorem C8_removal_count_padding :
    u8_padding_value = 1 ∧
    ((GridState.new 1 1 1).extend_if_needed (0, 0) (1, 0) 0).1.removal_count.data 1 0 = 1 ∧
    (GridState.new 2 1 1).removal_count.data 1 0 = 0 := by
  refine ⟨rfl, ?_, rfl⟩
  decide

/-- `check_completion` holds exactly when bounds are set and the tally sum
reaches the inclusive area, for sane bounds. -/
theorem check_completion_iff (e : GreedyStochastic)
    (hb : ∀ b, e.grid_state.generation_bounds = some b →
      b.min.1 ≤ b.max.1 ∧ b.min.2 ≤ b.max.2 ∧
      b.max.1 - b.min.1 + 1 < 2 ^ 32 ∧ b.max.2 - b.min.2 + 1 < 2 ^ 32) :
    check_completion e = true ↔
      ∃ b, e.grid_state.generation_bounds = some b ∧
        (b.max.1 - b.min.1 + 1).toNat * (b.max.2 - b.min.2 + 1).toNat ≤
          tally_sum e.selection_tally := by
  unfold check_completion
  cases hgb : e.grid_state.generation_bounds with
  | none => simp
  | some b =>
      obtain ⟨h1, h2, h3, h4⟩ := hb b hgb
      have hx : usizeCast (b.max.1 - b.min.1 + 1) = (b.max.1 - b.min.1 + 1).toNat := by
        unfold usizeCast
        rw [Int.emod_eq_of_lt (by omega) (by omega)]
      have hy : usizeCast (b.max.2 - b.min.2 + 1) = (b.max.2 - b.min.2 + 1).toNat := by
        unfold usizeCast
        rw [Int.emod_eq_of_lt (by omega) (by omega)]
      have hxlt : (b.max.1 - b.min.1 + 1).toNat ≤ 2 ^ 32 - 1 := by omega
      have hylt : (b.max.2 - b.min.2 + 1).toNat ≤ 2 ^ 32 - 1 := by omega
      have hprod : (b.max.1 - b.min.1 + 1).toNat * (b.max.2 - b.min.2 + 1).toNat
          < 2 ^ 64 := by
        calc (b.max.1 - b.min.1 + 1).toNat * (b.max.2 - b.min.2 + 1).toNat
            ≤ (2 ^ 32 - 1) * (2 ^ 32 - 1) := Nat.mul_le_mul hxlt hylt
          _ < 2 ^ 64 := by norm_num
      have hm : ((b.max.1 - b.min.1 + 1).toNat * (b.max.2 - b.min.2 + 1).toNat) % 2 ^ 64 =
          (b.max.1 - b.min.1 + 1).toNat * (b.max.2 - b.min.2 + 1).toNat :=
        Nat.mod_eq_of_lt hprod
      simp only [hx, hy, hm, decide_eq_true_eq]
      constructor
      · intro h
        exact ⟨b, rfl, h⟩
      · rintro ⟨b2, hb2, h⟩
        cases hb2
        exact h

/-- Claim C9: `run_iteration` reports completion (`Ok(false)`, placing
nothing) exactly when `generation_bounds` is set and the tally sum at the
start of the iteration is at least the inclusive area of the bounds; with
no bounds it never reports completion.  (Stated for sane bounds: each side
nonempty and narrower than 2^32.) -/
theorem C9_completion (ops : FloatOps) (fuel : Nat) (e : GreedyStochastic)
    (hb : ∀ b, e.grid_state.generation_bounds = some b →
      b.min.1 ≤ b.max.1 ∧ b.min.2 ≤ b.max.2 ∧
      b.max.1 - b.min.1 + 1 < 2 ^ 32 ∧ b.max.2 - b.min.2 + 1 < 2 ^ 32) :
    (run_iteration ops fuel e).1 = .ok false ↔
      ∃ b, e.grid_state.generation_bounds = some b ∧
        (b.max.1 - b.min.1 + 1).toNat * (b.max.2 - b.min.2 + 1).toNat ≤
          tally_sum e.selection_tally := by
  have hiff := check_completion_iff { e with iteration := e.iteration + 1 } hb
  unfold run_iteration
  by_cases hc : check_completion { e with iteration := e.iteration + 1 } = true
  · simp only [hc, if_true]
    simpa using hiff.mp hc
  · simp only [Bool.not_eq_true] at hc
    simp only [hc, Bool.false_eq_true, if_false]
    constructor
    · intro h
      exfalso
      rcases hd : get_placement_decision ops fuel { e with iteration := e.iteration + 1 }
        with ⟨res, e1⟩
      rw [hd] at h
      cases res with
      | error err => simp at h
      | ok decision => simp at h
    · intro h
      exfalso
      have : check_completion { e with iteration := e.iteration + 1 } = true :=
        hiff.mpr h
      rw [this] at hc
      exact absurd hc (by simp)

/-- Witness for C9: a bounded executor whose tally already covers the
1-by-1 bounds reports completion. -/
theorem C9_completion_witness :
    ((run_iteration ⟨id, id, id, 3, 1⟩ 1
      ⟨⟨[1], 1, 0, 0, 0, 0, []⟩,
        { GridState.new 1 1 1 with generation_bounds := some ⟨(0, 0), (0, 0)⟩ },
        (0, 0), ⟨1, 1, 1, 1, fun _ _ _ _ => 1⟩, 1, (0, 0), [1],
        FeasibilityCountLayer.new 1 1 0, ⟨fun _ => 0, 0⟩, [], 0, none, true⟩).1 =
      .ok false) ↔
    (∃ b, ({ GridState.new 1 1 1 with
          generation_bounds := some ⟨(0, 0), (0, 0)⟩ } : GridState).generation_bounds
        = some b ∧
      (b.max.1 - b.min.1 + 1).toNat * (b.max.2 - b.min.2 + 1).toNat ≤
        tally_sum [1]) :=
  C9_completion ⟨id, id, id, 3, 1⟩ 1
    ⟨⟨[1], 1, 0, 0, 0, 0, []⟩,
      { GridState.new 1 1 1 with generation_bounds := some ⟨(0, 0), (0, 0)⟩ },
      (0, 0), ⟨1, 1, 1, 1, fun _ _ _ _ => 1⟩, 1, (0, 0), [1],
      FeasibilityCountLayer.new 1 1 0, ⟨fun _ => 0, 0⟩, [], 0, none, true⟩
    (by
      intro b hb2
      have hbeq : b = (⟨(0, 0), (0, 0)⟩ : BoundingBox) := by
        have : (some (⟨(0, 0), (0, 0)⟩ : BoundingBox)) = some b := hb2
        injection this with h
        exact h.symm
      subst hbeq
      refine ⟨by norm_num, by norm_num, by norm_num, by norm_num⟩)

/-- Claim C4: for every 3x3 pattern `p` and extracted source tile `t`, if
`t` matches `p` under the wildcard rule (0 matches anything, other cells
must agree), then the compatibility-index entry looked up with `p`'s
membership mask contains `t`'s 1-based id. -/
theorem C4_compat_index_complete (source_tiles : List Tile) (unique_cell_count : Nat)
    (p : Pattern) (idx : Nat) (t : Tile) (hget : source_tiles.get? idx = some t)
    (hmatch : ∀ r c : Fin 3, p r c = 0 ∨ p r c = (t r c : Int)) :
    (idx + 1) ∈ reference_rules_lookup source_tiles unique_cell_count
      (convert_tile_to_membership_booleans p unique_cell_count) := by
  unfold reference_rules_lookup
  rw [List.mem_filterMap]
  refine ⟨idx, ?_, ?_⟩
  · rw [List.mem_range]
    exact List.get?_eq_some.mp hget |>.1
  · rw [hget]
    have hsub : maskSubset (convert_tile_to_membership_booleans p unique_cell_count)
        (convert_tile_to_membership_booleans (tileToPattern t) unique_cell_count) = true := by
      unfold maskSubset convert_tile_to_membership_booleans
      refine zip_map_all_imp (List.range unique_cell_count) _ _ ?_
      intro i _ hfi
      rw [decide_eq_true_eq] at hfi ⊢
      obtain ⟨r, c, hrc⟩ := hfi
      rcases hmatch r c with h0 | ht
      · exfalso
        rw [h0] at hrc
        omega
      · exact ⟨r, c, by rw [tileToPattern, ← ht, hrc]⟩
    simp [hsub]

/-- Folding addition over a range is the big-operator sum. -/
theorem foldl_add_eq_sum (n : Nat) (f : Nat → ℚ) :
    (List.range n).foldl (fun s i => s + f i) 0 = ∑ i in Finset.range n, f i := by
  have h : ∀ (l : List Nat) (b : ℚ), l.foldl (fun s i => s + f i) b = b + (l.map f).sum := by
    intro l
    induction l with
    | nil => intro b; simp
    | cons a t ih => intro b; simp [ih, add_assoc]
  rw [h, zero_add]
  rfl

/-- A guarded accumulation over a range is the sum over the filtered range. -/
theorem foldl_guard_eq_filter_sum (n : Nat) (f : Nat → ℚ) (P : Nat → Prop)
    [DecidablePred P] :
    (List.range n).foldl (fun s i => if P i then s + f i else s) 0 =
      ∑ i in (Finset.range n).filter P, f i := by
  calc (List.range n).foldl (fun s i => if P i then s + f i else s) 0
      = (List.range n).foldl (fun s i => s + if P i then f i else 0) 0 :=
        List.foldl_ext _ _ _ (by
          intro s i _
          by_cases hp : P i <;> simp [hp])
    _ = ∑ i in Finset.range n, (if P i then f i else 0) := foldl_add_eq_sum n _
    _ = ∑ i in (Finset.range n).filter P, f i := (Finset.sum_filter _ _).symm

/-- `mapIdx` reads back elementwise. -/
theorem get?_mapIdx {α β : Type} (l : List α) (f : Nat → α → β) (n : Nat) :
    (l.mapIdx f).get? n = (l.get? n).map (f n) := by
  simp [List.mapIdx_eq_enum_map, List.get?_eq_getElem?, List.getElem?_map]
  cases l[n]? <;> simp [Function.uncurry]

/-- The per-color probability array after the fused update. -/
theorem fused_probs_get (ops : FloatOps) (g : GridState) (impact : Arr3 ℚ)
    (region : Region) (c : Nat) :
    (update_probabilities_and_entropy_fused ops g impact region).tile_probabilities.get? c =
      (g.tile_probabilities.get? c).map (fun a => a.withData (fun r cc =>
        if region.mem r cc ∧ r < a.rows ∧ cc < a.cols then
          a.data r cc * (impact.get? c (r - region.row_start) (cc - region.col_start)).getD 1
        else a.data r cc)) := by
  unfold update_probabilities_and_entropy_fused
  exact get?_mapIdx _ _ c

/-- Reading an updated color at an in-bounds cell after the fused update. -/
theorem fused_read (ops : FloatOps) (g : GridState) (impact : Arr3 ℚ)
    (region : Region) (row col : Nat)
    (hshape : ∀ a ∈ g.tile_probabilities, row < a.rows ∧ col < a.cols)
    (c : Nat) (hc : c < g.tile_probabilities.length) :
    ∃ a2 : Arr2 ℚ,
      (update_probabilities_and_entropy_fused ops g impact region).tile_probabilities.get? c
        = some a2 ∧
      a2.get? row col = some (a2.data row col) ∧
      (update_probabilities_and_entropy_fused ops g impact region).probData c row col
        = a2.data row col := by
  have hne : g.tile_probabilities.get? c ≠ none := by
    intro hnone
    rw [List.get?_eq_none] at hnone
    omega
  cases hga : g.tile_probabilities.get? c with
  | none => exact absurd hga hne
  | some a =>
      obtain ⟨har, hac⟩ := hshape a (List.get?_mem hga)
      have h1 := fused_probs_get ops g impact region c
      rw [hga] at h1
      simp only [Option.map_some'] at h1
      refine ⟨_, h1, ?_, ?_⟩
      · unfold Arr2.get?
        rw [if_pos]
        exact ⟨har, hac⟩
      · simp only [GridState.probData, h1]

/-- Claim C3: after the fused update runs for a placement, every cell of
the updated window (within the grid) satisfies the entropy definition:
with `p` the just-updated probabilities and `mean` their sum over the
colors divided by `unique_cell_count`, the stored entropy is 0 when
`mean ≤ 0` and otherwise the sum of `(p/mean) * ln (p/mean)` over the
colors with `p/mean > 0`. -/
theorem C3_entropy_formula (ops : FloatOps) (g : GridState) (impact : Arr3 ℚ)
    (region : Region) (row col : Nat)
    (hmem : region.mem row col)
    (hlen : g.tile_probabilities.length = g.unique_cell_count)
    (hent : row < g.entropy.rows ∧ col < g.entropy.cols)
    (hshape : ∀ a ∈ g.tile_probabilities, row < a.rows ∧ col < a.cols) :
    (update_probabilities_and_entropy_fused ops g impact region).entropy.data row col =
      (if (∑ c in Finset.range g.unique_cell_count,
            (update_probabilities_and_entropy_fused ops g impact region).probData c row col) /
            (g.unique_cell_count : ℚ) ≤ 0 then 0
       else ∑ c in (Finset.range g.unique_cell_count).filter
            (fun c =>
              0 < (update_probabilities_and_entropy_fused ops g impact region).probData c row col /
                ((∑ c2 in Finset.range g.unique_cell_count,
                  (update_probabilities_and_entropy_fused ops g impact region).probData c2 row col) /
                  (g.unique_cell_count : ℚ))),
            ((update_probabilities_and_entropy_fused ops g impact region).probData c row col /
              ((∑ c2 in Finset.range g.unique_cell_count,
                (update_probabilities_and_entropy_fused ops g impact region).probData c2 row col) /
                (g.unique_cell_count : ℚ))) *
              ops.ln ((update_probabilities_and_entropy_fused ops g impact region).probData c row col /
                ((∑ c2 in Finset.range g.unique_cell_count,
                  (update_probabilities_and_entropy_fused ops g impact region).probData c2 row col) /
                  (g.unique_cell_count : ℚ)))) := by
  have hread := fun (c : Nat) (hc : c < g.unique_cell_count) =>
    fused_read ops g impact region row col hshape c (by omega)
  have hentdata : (update_probabilities_and_entropy_fused ops g impact region).entropy.data
      row col =
      entropy_at ops
        (update_probabilities_and_entropy_fused ops g impact region).tile_probabilities
        g.unique_cell_count row col := by
    conv_lhs => unfold update_probabilities_and_entropy_fused
    simp only [Arr2.withData]
    rw [if_pos ⟨hmem, hent.1, hent.2⟩]
    rfl
  rw [hentdata]
  unfold entropy_at
  have hsum : (List.range g.unique_cell_count).foldl (fun s color =>
      match (update_probabilities_and_entropy_fused ops g impact
          region).tile_probabilities.get? color with
      | some a => match a.get? row col with
                  | some pv => s + pv
                  | none => s
      | none => s) 0 =
      ∑ c in Finset.range g.unique_cell_count,
        (update_probabilities_and_entropy_fused ops g impact region).probData c row col := by
    rw [List.foldl_ext (g := fun s color => s +
      (update_probabilities_and_entropy_fused ops g impact region).probData color row col)]
    · exact foldl_add_eq_sum _ _
    · intro s c hc
      obtain ⟨a2, ha2, hb2, hp2⟩ := hread c (List.mem_range.mp hc)
      simp only [ha2, hb2, hp2]
  rw [hsum]
  by_cases hm : 0 < (∑ c in Finset.range g.unique_cell_count,
      (update_probabilities_and_entropy_fused ops g impact region).probData c row col) /
      (g.unique_cell_count : ℚ)
  · rw [if_pos hm, if_neg (not_le.mpr hm)]
    rw [List.foldl_ext (g := fun s color =>
      if 0 < (update_probabilities_and_entropy_fused ops g impact region).probData color row col /
          ((∑ c2 in Finset.range g.unique_cell_count,
            (update_probabilities_and_entropy_fused ops g impact region).probData c2 row col) /
            (g.unique_cell_count : ℚ)) then
        s + ((update_probabilities_and_entropy_fused ops g impact region).probData color row col /
          ((∑ c2 in Finset.range g.unique_cell_count,
            (update_probabilities_and_entropy_fused ops g impact region).probData c2 row col) /
            (g.unique_cell_count : ℚ))) *
          ops.ln ((update_probabilities_and_entropy_fused ops g impact region).probData color
              row col /
            ((∑ c2 in Finset.range g.unique_cell_count,
              (update_probabilities_and_entropy_fused ops g impact region).probData c2 row col) /
              (g.unique_cell_count : ℚ)))
      else s)]
    · exact foldl_guard_eq_filter_sum _ _ _
    · intro s c hc
      obtain ⟨a2, ha2, hb2, hp2⟩ := hread c (List.mem_range.mp hc)
      simp only [ha2, hb2, hp2, Option.getD_some]
  · rw [if_neg hm, if_pos (not_lt.mp hm)]


/-- Witness for C3 on a 1-by-1 one-color grid with influence factor 2. -/
theorem C3_entropy_formula_witness :
    (update_probabilities_and_entropy_fused ⟨id, id, id, 3, 1⟩ (GridState.new 1 1 1) ⟨1, 1, 1, fun _ _ _ => 2⟩ ⟨0, 1, 0, 1⟩).entropy.data 0 0 =
      (if (∑ c in Finset.range (GridState.new 1 1 1).unique_cell_count,
            (update_probabilities_and_entropy_fused ⟨id, id, id, 3, 1⟩ (GridState.new 1 1 1) ⟨1, 1, 1, fun _ _ _ => 2⟩ ⟨0, 1, 0, 1⟩).probData c 0 0) /
            ((GridState.new 1 1 1).unique_cell_count : ℚ) ≤ 0 then 0
       else ∑ c in (Finset.range (GridState.new 1 1 1).unique_cell_count).filter
            (fun c =>
              0 < (update_probabilities_and_entropy_fused ⟨id, id, id, 3, 1⟩ (GridState.new 1 1 1) ⟨1, 1, 1, fun _ _ _ => 2⟩ ⟨0, 1, 0, 1⟩).probData c 0 0 /
                ((∑ c2 in Finset.range (GridState.new 1 1 1).unique_cell_count,
                  (update_probabilities_and_entropy_fused ⟨id, id, id, 3, 1⟩ (GridState.new 1 1 1) ⟨1, 1, 1, fun _ _ _ => 2⟩ ⟨0, 1, 0, 1⟩).probData c2 0 0) /
                  ((GridState.new 1 1 1).unique_cell_count : ℚ))),
            ((update_probabilities_and_entropy_fused ⟨id, id, id, 3, 1⟩ (GridState.new 1 1 1) ⟨1, 1, 1, fun _ _ _ => 2⟩ ⟨0, 1, 0, 1⟩).probData c 0 0 /
              ((∑ c2 in Finset.range (GridState.new 1 1 1).unique_cell_count,
                (update_probabilities_and_entropy_fused ⟨id, id, id, 3, 1⟩ (GridState.new 1 1 1) ⟨1, 1, 1, fun _ _ _ => 2⟩ ⟨0, 1, 0, 1⟩).probData c2 0 0) /
                ((GridState.new 1 1 1).unique_cell_count : ℚ))) *
              (⟨id, id, id, 3, 1⟩ : FloatOps).ln ((update_probabilities_and_entropy_fused ⟨id, id, id, 3, 1⟩ (GridState.new 1 1 1) ⟨1, 1, 1, fun _ _ _ => 2⟩ ⟨0, 1, 0, 1⟩).probData c 0 0 /
                ((∑ c2 in Finset.range (GridState.new 1 1 1).unique_cell_count,
                  (update_probabilities_and_entropy_fused ⟨id, id, id, 3, 1⟩ (GridState.new 1 1 1) ⟨1, 1, 1, fun _ _ _ => 2⟩ ⟨0, 1, 0, 1⟩).probData c2 0 0) /
                  ((GridState.new 1 1 1).unique_cell_count : ℚ)))) :=
  C3_entropy_formula ⟨id, id, id, 3, 1⟩ (GridState.new 1 1 1) ⟨1, 1, 1, fun _ _ _ => 2⟩
    ⟨0, 1, 0, 1⟩ 0 0 (by decide) rfl ⟨by decide, by decide⟩
    (fun a ha => by
      have h2 : a = Arr2.const 1 1 (1 : ℚ) := List.eq_of_mem_replicate ha
      rw [h2]
      exact ⟨by decide, by decide⟩)

/-- Witness for C4: the corner tile matches a pattern whose only
constrained cell is its top-left 1, and the index entry for that pattern's
mask contains its id. -/
theorem C4_compat_index_complete_witness :
    1 ∈ reference_rules_lookup [cornerTile] 2
      (convert_tile_to_membership_booleans
        (fun r c => if r.val = 0 ∧ c.val = 0 then 1 else 0) 2) :=
  C4_compat_index_complete [cornerTile] 2
    (fun r c => if r.val = 0 ∧ c.val = 0 then 1 else 0) 0 cornerTile rfl
    (by decide)

/-- Rewriting an array with a function that agrees with its data is the
identity. -/
theorem withData_eq_self {α : Type} (a : Arr2 α) (f : Nat → Nat → α)
    (h : ∀ r c, f r c = a.data r c) : a.withData f = a := by
  have hf : f = a.data := funext fun r => funext fun c => h r c
  unfold Arr2.withData
  rw [hf]

/-- Two stacked rewrites keep only the outer one. -/
theorem withData_withData {α : Type} (a : Arr2 α) (g f : Nat → Nat → α) :
    (a.withData g).withData f = a.withData f := rfl

/-- The unlock division inverts the placement multiplication exactly: over
the same window and the same influence slice with strictly positive
entries, dividing back out restores every probability layer. -/
theorem divide_multiply_cancel (probs : List (Arr2 ℚ)) (U : Nat) (impact : Arr3 ℚ)
    (rs re cs ce : Nat)
    (hlenU : probs.length ≤ U)
    (hlen0 : probs.length ≤ impact.d0)
    (hpos : ∀ x y z, x < impact.d0 → y < impact.d1 → z < impact.d2 → 0 < impact.data x y z) :
    divide_influence_probs (multiply_influence_probs probs impact ⟨rs, re, cs, ce⟩)
      U impact rs re cs ce = probs := by
  apply List.ext_get?
  intro n
  unfold divide_influence_probs multiply_influence_probs
  rw [get?_mapIdx, get?_mapIdx]
  cases hget : probs.get? n with
  | none => rfl
  | some a =>
    have hn : n < probs.length := by
      by_contra hge
      rw [List.get?_eq_none.2 (by omega)] at hget
      exact Option.noConfusion hget
    have hU : n < U := lt_of_lt_of_le hn hlenU
    have hn0 : n < impact.d0 := lt_of_lt_of_le hn hlen0
    simp only [Option.map_some']
    congr 1
    rw [withData_withData]
    apply withData_eq_self
    intro r c
    simp only [Arr2.withData, Region.mem]
    by_cases hmain : rs ≤ r ∧ r < re ∧ cs ≤ c ∧ c < ce ∧ r - rs < impact.d1 ∧
        c - cs < impact.d2 ∧ n < U ∧ r < a.rows ∧ c < a.cols
    · obtain ⟨h1, h2, h3, h4, h5, h6, h7, h8, h9⟩ := hmain
      have hv : 0 < impact.data n (r - rs) (c - cs) := hpos _ _ _ hn0 h5 h6
      rw [if_pos ⟨h1, h2, h3, h4, h5, h6, h7, h8, h9⟩]
      simp only [Arr3.get?, if_pos (And.intro hn0 (And.intro h5 h6)), Option.getD_some]
      rw [if_pos (ne_of_gt hv)]
      rw [if_pos ⟨⟨h1, h2, h3, h4⟩, h8, h9⟩]
      exact mul_div_cancel_right₀ _ (ne_of_gt hv)
    · rw [if_neg hmain]
      by_cases hm : (rs ≤ r ∧ r < re ∧ cs ≤ c ∧ c < ce) ∧ r < a.rows ∧ c < a.cols
      · rw [if_pos hm]
        obtain ⟨⟨h1, h2, h3, h4⟩, h8, h9⟩ := hm
        have h56 : ¬ (r - rs < impact.d1) ∨ ¬ (c - cs < impact.d2) := by
          by_contra hcon
          push_neg at hcon
          exact hmain ⟨h1, h2, h3, h4, hcon.1, hcon.2, hU, h8, h9⟩
        have hnone : impact.get? n (r - rs) (c - cs) = none := by
          unfold Arr3.get?
          rw [if_neg]
          rintro ⟨_, hb, hc⟩
          rcases h56 with h | h
          · exact h hb
          · exact h hc
        rw [hnone]
        simp only [Option.getD_none, mul_one]
      · rw [if_neg hm]

/-- The probability layers produced by a non-skipped `unlock_one` pass. -/
theorem unlock_one_probs (H : GridState) (tally : List Nat) (off : Int × Int)
    (sd : StepData) (influence : Arr4 ℚ) (pr pc t : Nat)
    (ht1 : 1 ≤ t) (ht2 : t ≤ influence.d0) :
    (unlock_one H tally off sd influence (pr, pc, t)).1.tile_probabilities =
      divide_influence_probs H.tile_probabilities sd.unique_cell_count
        (influence.index_axis0 (t - 1))
        (min (get_region_spans off ((pr : Int) - off.1, (pc : Int) - off.2)
          sd.grid_extension_radius).1.1 H.rows)
        (min (get_region_spans off ((pr : Int) - off.1, (pc : Int) - off.2)
          sd.grid_extension_radius).1.2 H.rows)
        (min (get_region_spans off ((pr : Int) - off.1, (pc : Int) - off.2)
          sd.grid_extension_radius).2.1 H.cols)
        (min (get_region_spans off ((pr : Int) - off.1, (pc : Int) - off.2)
          sd.grid_extension_radius).2.2 H.cols) := by
  have hskip : ¬ (t = 0 ∨ influence.d0 < t) := by
    push_neg
    exact ⟨by omega, ht2⟩
  unfold unlock_one
  simp only [if_neg hskip]
  rfl

/-- Unlocking the placed cell on any grid that carries the fused-updated
probabilities (with unchanged dimensions) restores the pre-placement
probability layers. -/
theorem unlock_cancels_fused (ops : FloatOps) (g H : GridState) (influence : Arr4 ℚ)
    (sd : StepData) (pos off : Int × Int) (t : Nat) (tally : List Nat)
    (hin1 : 0 ≤ pos.1 + off.1) (hin2 : 0 ≤ pos.2 + off.2)
    (hprobs : H.tile_probabilities =
      (update_probabilities_and_entropy ops g influence t pos off sd).tile_probabilities)
    (hrows : H.rows = g.rows) (hcols : H.cols = g.cols)
    (ht1 : 1 ≤ t) (ht2 : t ≤ influence.d0)
    (hlenU : g.tile_probabilities.length ≤ sd.unique_cell_count)
    (hlen0 : g.tile_probabilities.length ≤ influence.d1)
    (hposv : ∀ x y z w, x < influence.d0 → y < influence.d1 → z < influence.d2 →
      w < influence.d3 → 0 < influence.data x y z w) :
    (unlock_one H tally off sd influence
      ((pos.1 + off.1).toNat, (pos.2 + off.2).toNat, t)).1.tile_probabilities =
      g.tile_probabilities := by
  rw [unlock_one_probs H tally off sd influence _ _ t ht1 ht2]
  have hc1 : (((pos.1 + off.1).toNat : Int) - off.1) = pos.1 := by omega
  have hc2 : (((pos.2 + off.2).toNat : Int) - off.2) = pos.2 := by omega
  rw [hc1, hc2, hprobs, hrows, hcols]
  have hfus : (update_probabilities_and_entropy ops g influence t pos off sd).tile_probabilities
      = multiply_influence_probs g.tile_probabilities (influence.index_axis0 (t - 1))
        ⟨min (get_region_spans off (pos.1, pos.2) sd.grid_extension_radius).1.1 g.rows,
         min (get_region_spans off (pos.1, pos.2) sd.grid_extension_radius).1.2 g.rows,
         min (get_region_spans off (pos.1, pos.2) sd.grid_extension_radius).2.1 g.cols,
         min (get_region_spans off (pos.1, pos.2) sd.grid_extension_radius).2.2 g.cols⟩ := rfl
  rw [hfus]
  exact divide_multiply_cancel g.tile_probabilities sd.unique_cell_count
    (influence.index_axis0 (t - 1)) _ _ _ _ hlenU hlen0
    (fun x y z hx hy hz => hposv (t - 1) x y z (by omega) hx hy hz)

/-- When no extension is needed, `extend_if_needed` is the identity. -/
theorem extend_if_needed_id (g : GridState) (off coords : Int × Int) (radius : Int)
    (h : (g.extension_info off coords radius).needs_extension = false) :
    g.extend_if_needed off coords radius = (g, off, false) := by
  unfold GridState.extend_if_needed
  simp [h]

/-- Without extension, `place_tile` leaves the dimensions unchanged and its
probability layers are those of the fused update. -/
theorem place_tile_no_ext (ops : FloatOps) (g : GridState) (off : Int × Int)
    (tally : List Nat) (fl : FeasibilityCountLayer) (influence : Arr4 ℚ)
    (sd : StepData) (pos : Int × Int) (t : Nat)
    (hext : (g.extension_info off pos sd.grid_extension_radius).needs_extension = false) :
    (place_tile ops g off tally fl influence sd ⟨pos, t⟩).1.tile_probabilities =
      (update_probabilities_and_entropy ops g influence t pos off sd).tile_probabilities ∧
    (place_tile ops g off tally fl influence sd ⟨pos, t⟩).1.rows = g.rows ∧
    (place_tile ops g off tally fl influence sd ⟨pos, t⟩).1.cols = g.cols := by
  have hextid := extend_if_needed_id g off pos sd.grid_extension_radius hext
  refine ⟨?_, ?_, ?_⟩ <;> (unfold place_tile; rw [hextid]) <;> rfl

/-- When the removal region unlocks exactly one cell, the probability
layers after deadlock resolution are those of that single unlock pass. -/
theorem resolve_single_unlock_probs (ops : FloatOps) (g : GridState)
    (fl : FeasibilityCountLayer) (cpos : Nat × Nat) (off : Int × Int)
    (tally : List Nat) (sd : StepData) (influence : Arr4 ℚ) (item : Nat × Nat × Nat)
    (hunlock : deadlock_unlock_list g cpos off = [item]) :
    (resolve_spatial_deadlock ops g fl cpos off tally sd influence).1.tile_probabilities =
      (unlock_one { g with removal_count := g.removal_count.modify cpos.1 cpos.2 (fun c => min (c + 1) 255) } tally off sd influence item).1.tile_probabilities := by
  unfold resolve_spatial_deadlock
  simp only [hunlock]
  rfl

/-- C6: when a placement (no extension needed, placed cell in-grid, valid
tile reference, probability layers within the tensor and color counts, all
influence entries strictly positive) is immediately reverted by a deadlock
centered on that cell whose removal region unlocks exactly that placement,
every `tile_probabilities` cell returns to its pre-placement value within
relative error `1e-10` (in fact exactly: the unlock divides out precisely
the factors the placement multiplied in over the same clamped window). -/
theorem C6_deadlock_probability_roundtrip (ops : FloatOps) (g : GridState)
    (off pos : Int × Int) (t : Nat) (tally : List Nat) (fl : FeasibilityCountLayer)
    (influence : Arr4 ℚ) (sd : StepData)
    (hext : (g.extension_info off pos sd.grid_extension_radius).needs_extension = false)
    (hin1 : 0 ≤ pos.1 + off.1) (hin2 : 0 ≤ pos.2 + off.2)
    (ht1 : 1 ≤ t) (ht2 : t ≤ influence.d0)
    (hlenU : g.tile_probabilities.length ≤ sd.unique_cell_count)
    (hlen0 : g.tile_probabilities.length ≤ influence.d1)
    (hposv : ∀ x y z w, x < influence.d0 → y < influence.d1 → z < influence.d2 →
      w < influence.d3 → 0 < influence.data x y z w)
    (hunlock : deadlock_unlock_list
      (place_tile ops g off tally fl influence sd ⟨pos, t⟩).1
      ((pos.1 + off.1).toNat, (pos.2 + off.2).toNat) off =
      [((pos.1 + off.1).toNat, (pos.2 + off.2).toNat, t)]) :
    ∀ c i j, |(resolve_spatial_deadlock ops
        (place_tile ops g off tally fl influence sd ⟨pos, t⟩).1
        (place_tile ops g off tally fl influence sd ⟨pos, t⟩).2.2.2
        ((pos.1 + off.1).toNat, (pos.2 + off.2).toNat) off
        (place_tile ops g off tally fl influence sd ⟨pos, t⟩).2.2.1
        sd influence).1.probData c i j - g.probData c i j|
      ≤ 1 / 10 ^ 10 * |g.probData c i j| := by
  intro c i j
  obtain ⟨hp1, hp2, hp3⟩ := place_tile_no_ext ops g off tally fl influence sd pos t hext
  have hres := resolve_single_unlock_probs ops
    (place_tile ops g off tally fl influence sd ⟨pos, t⟩).1
    (place_tile ops g off tally fl influence sd ⟨pos, t⟩).2.2.2
    ((pos.1 + off.1).toNat, (pos.2 + off.2).toNat) off
    (place_tile ops g off tally fl influence sd ⟨pos, t⟩).2.2.1
    sd influence ((pos.1 + off.1).toNat, (pos.2 + off.2).toNat, t) hunlock
  have hcancel := unlock_cancels_fused ops g
    { (place_tile ops g off tally fl influence sd ⟨pos, t⟩).1 with
        removal_count := (place_tile ops g off tally fl influence sd ⟨pos, t⟩).1.removal_count.modify (pos.1 + off.1).toNat (pos.2 + off.2).toNat (fun c => min (c + 1) 255) }
    influence sd pos off t
    (place_tile ops g off tally fl influence sd ⟨pos, t⟩).2.2.1
    hin1 hin2 hp1 hp2 hp3 ht1 ht2 hlenU hlen0 hposv
  have heq : (resolve_spatial_deadlock ops
      (place_tile ops g off tally fl influence sd ⟨pos, t⟩).1
      (place_tile ops g off tally fl influence sd ⟨pos, t⟩).2.2.2
      ((pos.1 + off.1).toNat, (pos.2 + off.2).toNat) off
      (place_tile ops g off tally fl influence sd ⟨pos, t⟩).2.2.1
      sd influence).1.probData c i j = g.probData c i j := by
    unfold GridState.probData
    rw [hres, hcancel]
  rw [heq, sub_self, abs_zero]
  exact mul_nonneg (by norm_num) (abs_nonneg _)

/-- Witness for C6: a 1x1 one-color grid with constant influence 2; the
placement at the origin is reverted by a deadlock at the same cell. -/
theorem C6_deadlock_probability_roundtrip_witness :
    |(resolve_spatial_deadlock ⟨fun x => x, fun x => x, fun x => x, 0, 0⟩
        (place_tile ⟨fun x => x, fun x => x, fun x => x, 0, 0⟩ (GridState.new 1 1 1) (0, 0) [0]
          (FeasibilityCountLayer.new 1 1 1) ⟨1, 1, 1, 1, fun _ _ _ _ => 2⟩
          ⟨[1], 1, 0, 0, 0, 0, []⟩ ⟨(0, 0), 1⟩).1
        (place_tile ⟨fun x => x, fun x => x, fun x => x, 0, 0⟩ (GridState.new 1 1 1) (0, 0) [0]
          (FeasibilityCountLayer.new 1 1 1) ⟨1, 1, 1, 1, fun _ _ _ _ => 2⟩
          ⟨[1], 1, 0, 0, 0, 0, []⟩ ⟨(0, 0), 1⟩).2.2.2
        ((((0 : Int) + (0 : Int)).toNat, ((0 : Int) + (0 : Int)).toNat)) (0, 0)
        (place_tile ⟨fun x => x, fun x => x, fun x => x, 0, 0⟩ (GridState.new 1 1 1) (0, 0) [0]
          (FeasibilityCountLayer.new 1 1 1) ⟨1, 1, 1, 1, fun _ _ _ _ => 2⟩
          ⟨[1], 1, 0, 0, 0, 0, []⟩ ⟨(0, 0), 1⟩).2.2.1
        ⟨[1], 1, 0, 0, 0, 0, []⟩ ⟨1, 1, 1, 1, fun _ _ _ _ => 2⟩).1.probData 0 0 0
        - (GridState.new 1 1 1).probData 0 0 0|
      ≤ 1 / 10 ^ 10 * |(GridState.new 1 1 1).probData 0 0 0| :=
  C6_deadlock_probability_roundtrip ⟨fun x => x, fun x => x, fun x => x, 0, 0⟩ (GridState.new 1 1 1)
    (0, 0) (0, 0) 1 [0] (FeasibilityCountLayer.new 1 1 1)
    ⟨1, 1, 1, 1, fun _ _ _ _ => 2⟩ ⟨[1], 1, 0, 0, 0, 0, []⟩
    (by decide) (by decide) (by decide) (by decide) (by decide)
    (by decide) (by decide)
    (fun x y z w _ _ _ _ => by norm_num)
    (by decide) 0 0 0


/-- `to_vec` lists the set bits in strictly increasing order. -/
theorem toVec_sorted (bs : TileBitset) : List.Sorted (· < ·) bs.toVec := by
  unfold TileBitset.toVec
  refine List.pairwise_filterMap.2 ?_
  refine List.Pairwise.imp ?_ (List.pairwise_lt_range _)
  intro a b hab v hv v' hv'
  by_cases ha : bs.bits.getD a false = true
  · by_cases hb : bs.bits.getD b false = true
    · simp only [ha, hb, if_pos, Option.mem_def, Option.some_inj] at hv hv'
      omega
    · rw [if_neg hb] at hv'
      exact absurd hv' (by simp)
  · rw [if_neg ha] at hv
    exact absurd hv (by simp)

/-- An all-false bitset lists nothing. -/
theorem toVec_empty (b : TileBitset) (h : b.isEmpty = true) : b.toVec = [] := by
  unfold TileBitset.toVec
  apply List.filterMap_eq_nil.2
  intro i hi
  have hb : b.bits[i]?.getD false = false := by
    unfold TileBitset.isEmpty at h
    rcases hgd : b.bits[i]? with _ | x
    · rfl
    · have hx := List.all_eq_true.1 h x (List.getElem?_mem hgd)
      simp at hx
      rw [hx]
      rfl
  simp [List.getD_eq_getElem?_getD, hb]

/-- Intersection with an empty bitset stays empty. -/
theorem isEmpty_intersection (b c : TileBitset) (h : b.isEmpty = true) :
    (b.intersection c).isEmpty = true := by
  unfold TileBitset.isEmpty at h ⊢
  unfold TileBitset.intersection
  simp only [List.all_eq_true] at h ⊢
  intro x hx
  simp only [List.mem_map] at hx
  obtain ⟨p, hp, hpx⟩ := hx
  have hb := h p.1 (List.mem_zip hp).1
  simp at hb
  simp [← hpx, hb]

/-- Folding intersections over any list keeps an empty bitset empty. -/
theorem foldl_inter_empty {α : Type} (l : List α) (f : α → TileBitset) (cur : TileBitset)
    (h : cur.isEmpty = true) :
    (l.foldl (fun a p => a.intersection (f p)) cur).isEmpty = true := by
  induction l generalizing cur with
  | nil => exact h
  | cons p rest ih => exact ih _ (isEmpty_intersection _ _ h)

/-- Every outcome of the window loop is strictly sorted. -/
theorem viable_loop_sorted (g : GridState) (pos off : Int × Int) (tiles : List Tile) (U : Nat) :
    ∀ (ps : List (Fin 3 × Fin 3)) (acc : Option TileBitset),
      List.Sorted (· < ·) (viable_loop g pos off tiles U ps acc) := by
  intro ps
  induction ps with
  | nil =>
    intro acc
    exact toVec_sorted _
  | cons p rest ih =>
    intro acc
    unfold viable_loop
    by_cases hk : window_kept pos off p = true
    · rw [if_pos hk]
      cases acc with
      | none => exact ih _
      | some cur =>
        simp only []
        by_cases he : ((cur.intersection
            (window_compatible_set g pos off tiles U p)).isEmpty) = true
        · rw [if_pos he]
          exact List.sorted_nil
        · rw [if_neg he]
          exact ih _
    · rw [if_neg hk]
      exact ih _

/-- Every window is consulted when the grid index of the cell is at least 2
on both axes (no clamped span has width below 3). -/
theorem window_kept_inner (pos off : Int × Int) (p : Fin 3 × Fin 3)
    (h1 : 2 ≤ pos.1 + off.1) (h2 : 2 ≤ pos.2 + off.2) :
    window_kept pos off p = true := by
  unfold window_kept get_region_spans
  simp only [Bool.not_eq_true', Bool.or_eq_false_iff, decide_eq_false_iff_not]
  constructor <;> omega

/-- Away from the top and left edges the patch the code reads coincides
with the claim-side window patch. -/
theorem viable_patch_eq_spec (g : GridState) (pos off : Int × Int) (p : Fin 3 × Fin 3)
    (h1 : 2 ≤ pos.1 + off.1) (h2 : 2 ≤ pos.2 + off.2) :
    viable_window_patch g
      (get_region_spans off (pos.1 + (p.1.val : Int) - 1, pos.2 + (p.2.val : Int) - 1) 1).1.1
      (get_region_spans off (pos.1 + (p.1.val : Int) - 1, pos.2 + (p.2.val : Int) - 1) 1).2.1
      = spec_window_patch g off (pos.1 + (p.1.val : Int) - 1, pos.2 + (p.2.val : Int) - 1) := by
  funext di dj
  unfold get_region_spans viable_window_patch spec_window_patch
  simp only []
  by_cases hg : (pos.1 + (p.1.val : Int) - 1 + off.1 - 1).toNat + di.val < g.rows ∧
      (pos.2 + (p.2.val : Int) - 1 + off.2 - 1).toNat + dj.val < g.cols
  · rw [if_pos hg]
    rw [if_pos (by omega : 0 ≤ pos.1 + (p.1.val : Int) - 1 + off.1 - 1 + (di.val : Int) ∧
      pos.1 + (p.1.val : Int) - 1 + off.1 - 1 + (di.val : Int) < (g.rows : Int) ∧
      0 ≤ pos.2 + (p.2.val : Int) - 1 + off.2 - 1 + (dj.val : Int) ∧
      pos.2 + (p.2.val : Int) - 1 + off.2 - 1 + (dj.val : Int) < (g.cols : Int))]
    have e1 : (pos.1 + (p.1.val : Int) - 1 + off.1 - 1 + (di.val : Int)).toNat
        = (pos.1 + (p.1.val : Int) - 1 + off.1 - 1).toNat + di.val := by omega
    have e2 : (pos.2 + (p.2.val : Int) - 1 + off.2 - 1 + (dj.val : Int)).toNat
        = (pos.2 + (p.2.val : Int) - 1 + off.2 - 1).toNat + dj.val := by omega
    rw [e1, e2]
  · rw [if_neg hg]
    rw [if_neg (by omega :
      ¬ (0 ≤ pos.1 + (p.1.val : Int) - 1 + off.1 - 1 + (di.val : Int) ∧
      pos.1 + (p.1.val : Int) - 1 + off.1 - 1 + (di.val : Int) < (g.rows : Int) ∧
      0 ≤ pos.2 + (p.2.val : Int) - 1 + off.2 - 1 + (dj.val : Int) ∧
      pos.2 + (p.2.val : Int) - 1 + off.2 - 1 + (dj.val : Int) < (g.cols : Int)))]

/-- Away from the top and left edges each window contributes the same
compatible-color set as the claim-side window. -/
theorem window_set_eq_spec (g : GridState) (pos off : Int × Int)
    (tiles : List Tile) (U : Nat) (p : Fin 3 × Fin 3)
    (h1 : 2 ≤ pos.1 + off.1) (h2 : 2 ≤ pos.2 + off.2) :
    window_compatible_set g pos off tiles U p =
      find_compatible_values_at_offset_bitset
        (spec_window_patch g off (pos.1 + (p.1.val : Int) - 1, pos.2 + (p.2.val : Int) - 1))
        tiles U (finTarget p.1) (finTarget p.2) := by
  unfold window_compatible_set
  simp only []
  rw [viable_patch_eq_spec g pos off p h1 h2]

/-- When every remaining window is consulted, the loop (with its early
empty return) computes the plain fold of intersections: once a running
intersection is empty it stays empty, so the early return does not change
the value. -/
theorem viable_loop_all_kept (g : GridState) (pos off : Int × Int)
    (tiles : List Tile) (U : Nat) :
    ∀ (ps : List (Fin 3 × Fin 3)), (∀ p ∈ ps, window_kept pos off p = true) →
    ∀ cur, viable_loop g pos off tiles U ps (some cur) =
      (ps.foldl (fun a p =>
        a.intersection (window_compatible_set g pos off tiles U p)) cur).toVec := by
  intro ps
  induction ps with
  | nil =>
    intro _ cur
    rfl
  | cons p rest ih =>
    intro hk cur
    unfold viable_loop
    rw [if_pos (hk p (by simp))]
    simp only [List.foldl_cons]
    by_cases he : (cur.intersection (window_compatible_set g pos off tiles U p)).isEmpty = true
    · rw [if_pos he]
      exact (toVec_empty _ (foldl_inter_empty rest _ _ he)).symm
    · rw [if_neg he]
      exact ih (fun q hq => hk q (by simp [hq])) _

/-- C5 (corrected): the result of `compute_viable_tiles_at_position` is
always strictly sorted, and when the cell's grid index is at least 2 on
both axes it equals the intersection of the compatible sets of all nine
windows; at the top/left edges the code skips clipped windows (see the
counterexample), so the claim's all-nine-windows reading fails there. -/
theorem C5_viable_tiles_interior (g : GridState) (pos off : Int × Int) (tiles : List Tile) (U : Nat)
    (h1 : 2 ≤ pos.1 + off.1) (h2 : 2 ≤ pos.2 + off.2) :
    List.Sorted (· < ·) (compute_viable_tiles_at_position g pos off tiles U) ∧
    compute_viable_tiles_at_position g pos off tiles U =
      spec_viable_tiles_nine_windows g pos off tiles U := by
  constructor
  · exact viable_loop_sorted g pos off tiles U _ _
  · have hstep : ∀ (p : Fin 3 × Fin 3) (rest : List (Fin 3 × Fin 3)),
        window_kept pos off p = true →
        viable_loop g pos off tiles U (p :: rest) none =
          viable_loop g pos off tiles U rest
            (some (window_compatible_set g pos off tiles U p)) := by
      intro p rest hk
      conv_lhs => rw [viable_loop]
      rw [if_pos hk]
    have hsets : ∀ q : Fin 3 × Fin 3,
        find_compatible_values_at_offset_bitset
          (spec_window_patch g off (pos.1 + (q.1.val : Int) - 1, pos.2 + (q.2.val : Int) - 1))
          tiles U (finTarget q.1) (finTarget q.2) = window_compatible_set g pos off tiles U q :=
      fun q => (window_set_eq_spec g pos off tiles U q h1 h2).symm
    unfold compute_viable_tiles_at_position spec_viable_tiles_nine_windows
    simp only [hsets]
    simp only [viable_positions, List.map_cons, List.map_nil]
    rw [hstep (1, 1) _ (window_kept_inner pos off (1, 1) h1 h2)]
    rw [viable_loop_all_kept g pos off tiles U _
      (fun q _ => window_kept_inner pos off q h1 h2) _]
    simp only [List.foldl_cons, List.foldl_nil]

/-- C5 counterexample to the literal claim: on a 1x1 grid with two colors
and one corner-marked source tile, the code consults only the one window
with unclipped spans and returns [1], while the claim's intersection over
all nine windows is empty. -/
theorem C5_viable_tiles_window_skip_counterexample :
    compute_viable_tiles_at_position (GridState.new 1 1 2) (0, 0) (0, 0) [cornerTile] 2 = [1] ∧
    spec_viable_tiles_nine_windows (GridState.new 1 1 2) (0, 0) (0, 0) [cornerTile] 2 = [] := by
  decide

/-- Witness for C5 at an interior cell of a 5x5 grid. -/
theorem C5_viable_tiles_interior_witness :
    2 ≤ (2 : Int) + 0 ∧ 2 ≤ (2 : Int) + 0 ∧
    (List.Sorted (· < ·)
      (compute_viable_tiles_at_position (GridState.new 5 5 2) (2, 2) (0, 0) [cornerTile] 2) ∧
    compute_viable_tiles_at_position (GridState.new 5 5 2) (2, 2) (0, 0) [cornerTile] 2 =
      spec_viable_tiles_nine_windows (GridState.new 5 5 2) (2, 2) (0, 0) [cornerTile] 2) :=
  ⟨by decide, by decide, C5_viable_tiles_interior (GridState.new 5 5 2) (2, 2) (0, 0) [cornerTile] 2
    (by decide) (by decide)⟩


end GreedyTile
